import Mathlib

/-!
Verification of the tabular configuration compiler of the repository
(`src/utils/excel_to_code.py` and `src/utils/config_manager.py`), as a
shallow embedding in Lean 4.

The embedding is executable: spreadsheet cells are modelled by `Scalar`,
coerced values by `PyVal`, grids by `List (List Scalar)`, and the file
system / converter / registry state by explicit records.  ambient Python
clock appears as explicit `now` / `writeTime` parameters.  String
operations that the Python source delegates to `str` methods are
re-implemented structurally over character lists so that every definition
reduces inside the kernel.

Deliberate modelling notes (the Python source is the authority; these are
representation choices, not simplifications of the control flow):
* Python floats are carried as their source literal (`Scalar.float lit`);
  float *formatting* is therefore approximated, but no verified statement
  depends on a float value.
* `json.loads` / `yaml.safe_load` are external libraries; they are
  modelled by small parsers covering the flat shapes that occur in
  configuration sheets.  No verified statement depends on their output.
* Executing a generated module (`exec_module`) is modelled by returning
  the semantic content stored with the generated file.
-/

set_option maxRecDepth 10000
set_option synthInstance.maxSize 3000
set_option synthInstance.maxHeartbeats 2000000

namespace VoiceCfg

/-! ## Python string primitives, re-implemented structurally -/

/-- Characters removed by Python `str.strip()` (ASCII whitespace;
exotic Unicode space classes are not modelled). -/
def isPyWS (c : Char) : Bool :=
  c = ' ' || c = '\t' || c = '\n' || c = '\r' || c = '\x0b' || c = '\x0c'

/-- Python `str.strip()`. -/
def pyStrip (s : String) : String :=
  ⟨((s.data.dropWhile isPyWS).reverse.dropWhile isPyWS).reverse⟩

/-- Python `str.lower()` (ASCII; characters such as 是 are unchanged). -/
def pyLower (s : String) : String :=
  ⟨s.data.map Char.toLower⟩

/-- Python `str.upper()` (ASCII). -/
def pyUpper (s : String) : String :=
  ⟨s.data.map Char.toUpper⟩

/-- Python `str.replace(old, new)` where `old` is a single character
(every replacement in `_escape_string` uses a one-character pattern). -/
def replaceChar (s : String) (c : Char) (rep : String) : String :=
  ⟨s.data.foldr (fun x acc => if x = c then rep.data ++ acc else x :: acc) []⟩

/-- Python `str.split(sep)` for a one-character separator
(`"".split(',') = ['']`, and empty pieces are kept). -/
def splitChar (s : String) (sep : Char) : List String :=
  (s.data.foldr
    (fun c acc =>
      match acc with
      | [] => if c = sep then [[], []] else [[c]]
      | h :: t => if c = sep then [] :: (h :: t) else (c :: h) :: t)
    [[]]).map (fun cs => (⟨cs⟩ : String))

/-- Python membership test (c in s) for a character. -/
def strContainsChar (s : String) (c : Char) : Bool :=
  s.data.any (fun x => x = c)

/-- Python startswith for a one-character pattern. -/
def startsWithChar (s : String) (c : Char) : Bool :=
  match s.data with
  | [] => false
  | x :: _ => x = c

/-- Python endswith for a one-character pattern. -/
def endsWithChar (s : String) (c : Char) : Bool :=
  match s.data.getLast? with
  | Option.none => false
  | some x => x = c

/-- Python startswith for an arbitrary string pattern. -/
def startsWithStr (s p : String) : Bool :=
  p.data.isPrefixOf s.data

example : pyStrip "  a b\t" = "a b" := by decide
example : splitChar "a,b,,c" ',' = ["a", "b", "", "c"] := by decide
example : splitChar "" ',' = [""] := by decide
example : splitChar "," ',' = ["", ""] := by decide
example : replaceChar "a\"b" '"' "\\\"" = "a\\\"b" := by decide

/-- Digits of a natural-number string, as a value. -/
def natOfDigits (ds : List Char) : Nat :=
  ds.foldl (fun a c => a * 10 + (c.toNat - '0'.toNat)) 0

/-- Python `int(s)` on a string: strips whitespace, then an optional
sign followed by a non-empty run of digits (digit-group underscores are
not modelled). -/
def pyIntOfString (s : String) : Option Int :=
  let t := pyStrip s
  let (sign, ds) :=
    match t.data with
    | '-' :: rest => ((-1 : Int), rest)
    | '+' :: rest => ((1 : Int), rest)
    | rest => ((1 : Int), rest)
  if ds.isEmpty then Option.none
  else if ds.all Char.isDigit then some (sign * (natOfDigits ds : Int))
  else Option.none

example : pyIntOfString " -42 " = some (-42) := by decide
example : pyIntOfString "1.5" = Option.none := by decide
example : pyIntOfString "" = Option.none := by decide

/-- The shape of a parsed Python float literal. -/
inductive PyFloatForm where
  | finite (neg : Bool) (ip fp : List Char) (ex : Int)
  | inf (neg : Bool)
  | nanv
deriving Repr, DecidableEq

/-- Parser for the strings accepted by Python `float(s)`:
optional sign, then either `inf`/`infinity`/`nan` (case-insensitive) or a
decimal mantissa with an optional exponent (digit-group underscores are
not modelled). -/
def parsePyFloat (s : String) : Option PyFloatForm :=
  let t := pyLower (pyStrip s)
  let (neg, body) :=
    match t.data with
    | '-' :: rest => (true, (⟨rest⟩ : String))
    | '+' :: rest => (false, (⟨rest⟩ : String))
    | _ => (false, t)
  if body = "inf" || body = "infinity" then some (.inf neg)
  else if body = "nan" then some .nanv
  else
    let parseMant : String → Option (List Char × List Char) := fun m =>
      match splitChar m '.' with
      | [a] => if a.data ≠ [] ∧ a.data.all Char.isDigit then some (a.data, []) else Option.none
      | [a, b] =>
          if a.data.all Char.isDigit ∧ b.data.all Char.isDigit ∧ (a.data ≠ [] ∨ b.data ≠ []) then
            some (a.data, b.data)
          else Option.none
      | _ => Option.none
    let parseExp : String → Option Int := fun e =>
      match e.data with
      | '-' :: rest => if rest ≠ [] ∧ rest.all Char.isDigit then some (-(natOfDigits rest : Int)) else Option.none
      | '+' :: rest => if rest ≠ [] ∧ rest.all Char.isDigit then some (natOfDigits rest : Int) else Option.none
      | rest => if rest ≠ [] ∧ rest.all Char.isDigit then some (natOfDigits rest : Int) else Option.none
    match splitChar body 'e' with
    | [m] => (parseMant m).map (fun (ip, fp) => .finite neg ip fp 0)
    | [m, e] =>
        match parseMant m, parseExp e with
        | some (ip, fp), some ex => some (.finite neg ip fp ex)
        | _, _ => Option.none
    | _ => Option.none

/-- Does Python `float(s)` succeed on this string? -/
def pyFloatParses (s : String) : Bool :=
  (parsePyFloat s).isSome

example : pyFloatParses "1.5e3" = true := by decide
example : pyFloatParses "1." = true := by decide
example : pyFloatParses ".5" = true := by decide
example : pyFloatParses "." = false := by decide
example : pyFloatParses "-inf" = true := by decide
example : pyFloatParses "abc" = false := by decide

/-- Truncation of a parsed finite float towards zero (`int(float)`);
`Option.none` for `inf`/`nan`, where Python `int()` raises. -/
def floatLitToInt (lit : String) : Option Int :=
  match parsePyFloat lit with
  | some (.finite neg ip fp ex) =>
      let digits := natOfDigits (ip ++ fp)
      let shift : Int := ex - (fp.length : Int)
      let mag : Nat :=
        if 0 ≤ shift then digits * 10 ^ shift.toNat
        else digits / 10 ^ (-shift).toNat
      some (if neg then -(mag : Int) else (mag : Int))
  | _ => Option.none

/-- Magnitude test `|float| > 1e308` used by the range
warning of the validator (`inf` counts as out of range, `nan` does not). -/
def floatLitExceedsRange (lit : String) : Bool :=
  match parsePyFloat lit with
  | some (.finite _ ip fp ex) =>
      let digits := natOfDigits (ip ++ fp)
      let shift : Int := ex - (fp.length : Int)
      let mag : Nat :=
        if 0 ≤ shift then digits * 10 ^ shift.toNat
        else digits / 10 ^ (-shift).toNat
      mag > 10 ^ 308
  | some (.inf _) => true
  | _ => false

example : floatLitToInt "1.9" = some 1 := by decide
example : floatLitToInt "-2.5e1" = some (-25) := by decide
example : floatLitToInt "inf" = Option.none := by decide

end VoiceCfg

namespace VoiceCfg

/-! ## Cells and values -/

/-- A scalar Python value, as delivered by the spreadsheet reader for one
cell: missing cells are `nan` (pandas NaN), other cells are text, numbers
or booleans.  `float` carries its decimal literal. -/
inductive Scalar where
  | none
  | nan
  | str (s : String)
  | int (n : Int)
  | float (lit : String)
  | bool (b : Bool)
deriving Repr, DecidableEq

/-- A coerced value (`_process_value_by_type` output or a parsed
structure): a scalar, a list of scalars (from `_parse_list_value` /
a YAML sequence), or a flat mapping (from `json.loads` / a YAML map). -/
inductive PyVal where
  | sc (v : Scalar)
  | list (xs : List Scalar)
  | dict (kvs : List (String × Scalar))
deriving Repr, DecidableEq

/-- pandas `pd.isna`: true for NaN and for Python `None`. -/
def isna : Scalar → Bool
  | .nan => true
  | .none => true
  | _ => false

/-- Python `str()` of a scalar.  `str(float)` is approximated by the
stored literal and `str` of containers is never applied to spreadsheet
cells. -/
def pyStr : Scalar → String
  | .none => "None"
  | .nan => "nan"
  | .str s => s
  | .int n => toString n
  | .float lit => lit
  | .bool b => if b then "True" else "False"

/-- Python truthiness `bool(value)` of a scalar (`bool(nan)` is true). -/
def pyTruthy : Scalar → Bool
  | .none => false
  | .nan => true
  | .str s => s ≠ ""
  | .int n => n ≠ 0
  | .float lit =>
      match floatLitToInt lit with
      | some 0 =>
          -- a finite literal is falsy exactly when its value is zero:
          -- truncation zero plus an all-zero digit string
          match parsePyFloat lit with
          | some (.finite _ ip fp _) => ¬ ((ip ++ fp).all (fun c => c = '0'))
          | _ => true
      | _ => true
  | .bool b => b

/-- Python `int(value)` on a scalar cell; `Option.none` where Python
raises. -/
def pyIntOfScalar : Scalar → Option Int
  | .str s => pyIntOfString s
  | .int n => some n
  | .float lit => floatLitToInt lit
  | .bool b => some (if b then 1 else 0)
  | .nan => Option.none
  | .none => Option.none

/-- Python `float(value)` on a scalar cell (result carried as a
literal); `Option.none` where Python raises. -/
def pyFloatOfScalar : Scalar → Option String
  | .str s => if pyFloatParses s then some (pyStrip s) else Option.none
  | .int n => some (toString n ++ ".0")
  | .float lit => some lit
  | .bool b => some (if b then "1.0" else "0.0")
  | .nan => some "nan"
  | .none => Option.none

/-! ## `ExcelToCodeConverter._escape_string` and a reader for the
emitted literals -/

/-- Embeds `_escape_string` (excel_to_code.py:442-455), faithfully in source
order: double quote, then backslash, then newline, carriage return and
tab, finally wrapped in double quotes. -/
def escapeString (s : String) : String :=
  let s1 := replaceChar s '"' "\\\""
  let s2 := replaceChar s1 '\\' "\\\\"
  let s3 := replaceChar s2 '\n' "\\n"
  let s4 := replaceChar s3 '\r' "\\r"
  let s5 := replaceChar s4 '\t' "\\t"
  "\"" ++ s5 ++ "\""

/-- Reads the body of a double-quoted Python string literal: a closing
quote must end the literal (trailing text means the input is not one
literal), `\"` `\\` `\n` `\r` `\t` decode to the escaped character, an
unrecognized escape keeps the backslash, and the literal must be
closed. -/
def unescapeChars : List Char → Option (List Char)
  | [] => Option.none
  | '"' :: rest => if rest = [] then some [] else Option.none
  | '\\' :: c :: rest =>
      let dec : Option Char :=
        if c = '"' then some '"'
        else if c = '\\' then some '\\'
        else if c = 'n' then some '\n'
        else if c = 'r' then some '\r'
        else if c = 't' then some '\t'
        else Option.none
      match dec with
      | some d => (unescapeChars rest).map (fun l => d :: l)
      | Option.none => (unescapeChars rest).map (fun l => '\\' :: c :: l)
  | c :: rest => (unescapeChars rest).map (fun l => c :: l)

/-- Evaluates a string that is supposed to be exactly one double-quoted
Python string literal. -/
def pyEvalStringLiteral (s : String) : Option String :=
  match s.data with
  | '"' :: rest => (unescapeChars rest).map (fun l => (⟨l⟩ : String))
  | _ => Option.none

example : pyEvalStringLiteral "\"a\\nb\"" = some "a\nb" := by decide
example : pyEvalStringLiteral (escapeString "a\nb") = some "a\nb" := by decide
example : pyEvalStringLiteral (escapeString "a\\b") = some "a\\b" := by decide
example : escapeString "\"" = "\"\\\\\"\"" := by decide

/-! ## Type coercion (`_parse_list_value`, `_parse_json_value`,
`_parse_yaml_value`, `_process_value_by_type`) -/

/-- The opportunistic element conversion inside `_parse_list_value`:
items containing a dot try `float`, others try `int`, failures keep the
text. -/
def convListItem (item : String) : Scalar :=
  if strContainsChar item '.' then
    match pyFloatOfScalar (.str item) with
    | some lit => .float lit
    | Option.none => .str item
  else
    match pyIntOfString item with
    | some n => .int n
    | Option.none => .str item

/-- Embeds `_parse_list_value` (excel_to_code.py:251-297).  The
`isinstance(value, (list, tuple))` branch is unreachable for spreadsheet
cells (they are scalars), so the non-string fallback is `[str(value)]`. -/
def parseListValue (value : Scalar) : List Scalar :=
  match value with
  | .str s0 =>
      let value := pyStrip s0
      if startsWithChar value '[' ∧ endsWithChar value ']' then
        let content := pyStrip ⟨(value.data.drop 1).dropLast⟩
        if content = "" then []
        else (splitChar content ',').map (fun item => convListItem (pyStrip item))
      else if strContainsChar value ',' then
        (splitChar value ',').map (fun item => convListItem (pyStrip item))
      else
        [.str value]
  | v => [.str (pyStr v)]

example : parseListValue (.str "[1, 2, three]") = [.int 1, .int 2, .str "three"] := by decide
example : parseListValue (.str "[你好, 您好]") = [.str "你好", .str "您好"] := by decide
example : parseListValue (.str "[]") = [] := by decide
example : parseListValue (.str "a, b") = [.str "a", .str "b"] := by decide

/-- Minimal model of `json.loads` (an external library): flat objects
with double-quoted keys and string/integer values.  No verified claim
depends on parsed JSON content. -/
def jsonParseFlat (s : String) : Option (List (String × Scalar)) :=
  let t := pyStrip s
  match t.data with
  | '{' :: rest =>
      match rest.getLast? with
      | some '}' =>
          let inner := pyStrip ⟨rest.dropLast⟩
          if inner = "" then some []
          else
            let readStr : String → Option String := fun u =>
              match u.data with
              | '"' :: r =>
                  match r.getLast? with
                  | some '"' => if ('"' ∈ r.dropLast) ∨ ('\\' ∈ r.dropLast) then Option.none else some ⟨r.dropLast⟩
                  | _ => Option.none
              | _ => Option.none
            let readPair : String → Option (String × Scalar) := fun part =>
              match splitChar part ':' with
              | [k, v] =>
                  match readStr (pyStrip k) with
                  | some key =>
                      match readStr (pyStrip v) with
                      | some sv => some (key, .str sv)
                      | Option.none =>
                          match pyIntOfString v with
                          | some n => some (key, .int n)
                          | Option.none => Option.none
                  | Option.none => Option.none
              | _ => Option.none
            let parts := (splitChar inner ',').map pyStrip
            let pairs := parts.map readPair
            if pairs.all Option.isSome then some (pairs.reduceOption) else Option.none
      | _ => Option.none
  | _ => Option.none

/-- Embeds `_parse_json_value` (excel_to_code.py:299-308): strings bounded by
braces are parsed, a parse failure (or absent braces) keeps the stripped
text; non-strings pass through. -/
def parseJsonValue (value : Scalar) : PyVal :=
  match value with
  | .str s0 =>
      let value := pyStrip s0
      if startsWithChar value '{' ∧ endsWithChar value '}' then
        match jsonParseFlat value with
        | some kvs => .dict kvs
        | Option.none => .sc (.str value)
      else .sc (.str value)
  | v => .sc v

/-- Minimal model of `yaml.safe_load` (an external library) on the two
shapes the converter recognizes: `- item` sequences and flat
`key: value` maps; anything else loads as the raw string.  No verified
claim depends on parsed YAML content. -/
def yamlLoadModel (s : String) : Option PyVal :=
  let lines := (splitChar s '\n').map pyStrip |>.filter (fun l => l ≠ "")
  if lines ≠ [] ∧ lines.all (fun l => startsWithStr l "- ") then
    some (.list (lines.map (fun l => .str (pyStrip ⟨l.data.drop 2⟩))))
  else if lines ≠ [] ∧ lines.all (fun l => strContainsChar l ':') then
    let pairs := lines.map (fun l =>
      match splitChar l ':' with
      | [k, v] => some ((pyStrip k), Scalar.str (pyStrip v))
      | _ => (Option.none : Option (String × Scalar)))
    if pairs.all Option.isSome then some (.dict pairs.reduceOption) else Option.none
  else some (.sc (.str s))

/-- Embeds `_parse_yaml_value` (excel_to_code.py:310-319): strings starting
with `-` or containing `:` are loaded as YAML, a load failure keeps the
stripped text; non-strings pass through. -/
def parseYamlValue (value : Scalar) : PyVal :=
  match value with
  | .str s0 =>
      let value := pyStrip s0
      if startsWithChar value '-' ∨ strContainsChar value ':' then
        match yamlLoadModel value with
        | some v => v
        | Option.none => .sc (.str value)
      else .sc (.str value)
  | v => .sc v

/-- Embeds `_process_value_by_type` (excel_to_code.py:218-249): NaN cells
become `None`; otherwise the declared type tag (stringified, stripped,
lowercased) selects the coercion, unknown tags defaulting to the string
treatment. -/
def processValueByType (value : Scalar) (colType : Scalar) : PyVal :=
  if isna value then .sc .none
  else
    let t := pyLower (pyStrip (pyStr colType))
    if t = "string" then .sc (.str (pyStrip (pyStr value)))
    else if t = "int" then
      .sc (.int ((pyIntOfScalar value).getD 0))
    else if t = "float" then
      .sc (.float ((pyFloatOfScalar value).getD "0.0"))
    else if t = "bool" then
      match value with
      | .str s => .sc (.bool (pyLower s ∈ ["true", "1", "yes", "是"]))
      | v => .sc (.bool (pyTruthy v))
    else if t = "list" then .list (parseListValue value)
    else if t = "json" then parseJsonValue value
    else if t = "yaml" then parseYamlValue value
    else .sc (.str (pyStrip (pyStr value)))

example : processValueByType (.str "TRUE") (.str "bool") = .sc (.bool true) := by decide
example : processValueByType (.str "no") (.str "bool") = .sc (.bool false) := by decide
example : processValueByType .nan (.str "string") = .sc .none := by decide
example : processValueByType (.str " 7 ") (.str "int") = .sc (.int 7) := by decide
example : processValueByType (.str "x") (.str "int") = .sc (.int 0) := by decide

end VoiceCfg

namespace VoiceCfg

/-! ## Small facts about string concatenation -/

theorem strAppendData (a b : String) : (a ++ b).data = a.data ++ b.data := by
  cases a
  cases b
  rfl

theorem strExt {a b : String} (h : a.data = b.data) : a = b := by
  cases a
  cases b
  exact congrArg String.mk h

theorem strAppendAssoc (a b c : String) : (a ++ b) ++ c = a ++ (b ++ c) := by
  apply strExt
  simp [strAppendData, List.append_assoc]

theorem strAppendEmptyRight (a : String) : a ++ "" = a := by
  apply strExt
  simp [strAppendData]

theorem strEmptyAppend (a : String) : "" ++ a = a := by
  apply strExt
  simp [strAppendData]

/-- Factoring a string-accumulating fold: the accumulator is a pure
prefix of the result. -/
theorem foldl_append_factor {α : Type} (f : α → String) (l : List α) (a : String) :
    l.foldl (fun acc x => acc ++ f x) a = a ++ l.foldl (fun acc x => acc ++ f x) "" := by
  induction l generalizing a with
  | nil => simp [strAppendEmptyRight]
  | cons h t ih =>
      simp only [List.foldl_cons]
      rw [ih (a ++ f h), ih ("" ++ f h), strEmptyAppend, strAppendAssoc]

/-! ## Association lists (Python `dict` semantics: insertion order
preserved, assignment to an existing key overwrites in place) -/

def alookup {α β : Type} [DecidableEq α] : List (α × β) → α → Option β
  | [], _ => Option.none
  | (k', v) :: t, k => if k' = k then some v else alookup t k

def aset {α β : Type} [DecidableEq α] (m : List (α × β)) (k : α) (v : β) : List (α × β) :=
  if m.any (fun p => decide (p.1 = k)) then m.map (fun p => if p.1 = k then (k, v) else p)
  else m ++ [(k, v)]

section AssocLemmas

variable {α β : Type} [DecidableEq α]

theorem alookup_append (m l : List (α × β)) (k : α) :
    alookup (m ++ l) k =
      match alookup m k with
      | some w => some w
      | Option.none => alookup l k := by
  induction m with
  | nil => simp [alookup]
  | cons p t ih =>
      rcases p with ⟨a, b⟩
      by_cases hp : a = k
      · simp [alookup, hp]
      · simpa [alookup, hp] using ih

theorem alookup_none_forall {m : List (α × β)} {k : α} (h : alookup m k = Option.none) :
    ∀ p ∈ m, p.1 ≠ k := by
  induction m with
  | nil => simp
  | cons p t ih =>
      rcases p with ⟨a, b⟩
      by_cases hp : a = k
      · simp [alookup, hp] at h
      · simp only [alookup, hp, if_false] at h
        intro q hq
        rcases List.mem_cons.mp hq with hq | hq
        · rw [hq]
          exact hp
        · exact ih h q hq

theorem not_any_of_alookup_none {m : List (α × β)} {k : α} (h : alookup m k = Option.none) :
    m.any (fun p => decide (p.1 = k)) = false := by
  rw [List.any_eq_false]
  intro p hp
  simpa using alookup_none_forall h p hp

theorem alookup_none_of_not_any {m : List (α × β)} {k : α}
    (h : m.any (fun p => decide (p.1 = k)) = false) : alookup m k = Option.none := by
  induction m with
  | nil => rfl
  | cons p t ih =>
      rcases p with ⟨a, b⟩
      rw [List.any_eq_false] at h
      have hp : ¬ a = k := by simpa using h (a, b) (by simp)
      have ht : t.any (fun q => decide (q.1 = k)) = false := by
        rw [List.any_eq_false]
        intro q hq
        simpa using h q (by simp [hq])
      simp [alookup, hp, ih ht]

theorem mapset_lookup_self (m : List (α × β)) (k : α) (v : β)
    (h : m.any (fun p => decide (p.1 = k)) = true) :
    alookup (m.map (fun p => if p.1 = k then (k, v) else p)) k = some v := by
  induction m with
  | nil => simp at h
  | cons p t ih =>
      rcases p with ⟨a, b⟩
      simp only [List.map_cons]
      by_cases hp : a = k
      · have : (if (a, b).1 = k then (k, v) else (a, b)) = (k, v) := by simp [hp]
        rw [this]
        simp [alookup]
      · have : (if (a, b).1 = k then (k, v) else (a, b)) = (a, b) := by simp [hp]
        rw [this]
        have h' : t.any (fun q => decide (q.1 = k)) = true := by
          simp only [List.any_cons, Bool.or_eq_true, decide_eq_true_eq] at h
          rcases h with h | h
          · exact absurd h hp
          · exact h
        simp only [alookup, hp, if_false]
        exact ih h'

theorem mapset_lookup_ne (m : List (α × β)) (k k' : α) (v : β) (h : k' ≠ k) :
    alookup (m.map (fun p => if p.1 = k then (k, v) else p)) k' = alookup m k' := by
  induction m with
  | nil => simp [alookup]
  | cons p t ih =>
      rcases p with ⟨a, b⟩
      simp only [List.map_cons]
      by_cases hp : a = k
      · have : (if (a, b).1 = k then (k, v) else (a, b)) = (k, v) := by simp [hp]
        rw [this]
        have hk : ¬ k = k' := fun hh => h hh.symm
        have hp' : ¬ a = k' := by
          rw [hp]
          exact hk
        simp only [alookup, hk, hp', if_false]
        exact ih
      · have : (if (a, b).1 = k then (k, v) else (a, b)) = (a, b) := by simp [hp]
        rw [this]
        by_cases hq : a = k'
        · simp [alookup, hq]
        · simp only [alookup, hq, if_false]
          exact ih

theorem alookup_aset_self (m : List (α × β)) (k : α) (v : β) :
    alookup (aset m k v) k = some v := by
  unfold aset
  by_cases h : m.any (fun p => decide (p.1 = k)) = true
  · rw [if_pos h]
    exact mapset_lookup_self m k v h
  · have hf : m.any (fun p => decide (p.1 = k)) = false := Bool.eq_false_iff.mpr h
    rw [hf]
    simp only [Bool.false_eq_true, if_false]
    rw [alookup_append, alookup_none_of_not_any hf]
    simp [alookup]

theorem alookup_aset_ne (m : List (α × β)) (k k' : α) (v : β) (h : k' ≠ k) :
    alookup (aset m k v) k' = alookup m k' := by
  unfold aset
  by_cases hany : m.any (fun p => decide (p.1 = k)) = true
  · rw [if_pos hany]
    exact mapset_lookup_ne m k k' v h
  · have hf : m.any (fun p => decide (p.1 = k)) = false := Bool.eq_false_iff.mpr hany
    rw [hf]
    simp only [Bool.false_eq_true, if_false]
    rw [alookup_append]
    cases hm : alookup m k' with
    | none =>
        have hk : ¬ k = k' := fun hh => h hh.symm
        simp [alookup, hk]
    | some w => simp

theorem mem_aset {m : List (α × β)} {k : α} {v : β} {p : α × β} (h : p ∈ aset m k v) :
    p = (k, v) ∨ p ∈ m := by
  unfold aset at h
  by_cases hany : m.any (fun q => decide (q.1 = k)) = true
  · rw [if_pos hany] at h
    rcases List.mem_map.mp h with ⟨q, hq, hqe⟩
    by_cases hqk : q.1 = k
    · left
      rw [← hqe]
      simp [hqk]
    · right
      rw [← hqe]
      simpa [hqk] using hq
  · rw [if_neg hany] at h
    rcases List.mem_append.mp h with h | h
    · exact Or.inr h
    · left
      simpa using h

theorem alookup_some_split {m : List (α × β)} {k : α} {v : β}
    (h : alookup m k = some v) :
    ∃ l1 l2, m = l1 ++ (k, v) :: l2 ∧ ∀ p ∈ l1, p.1 ≠ k := by
  induction m with
  | nil => simp [alookup] at h
  | cons p t ih =>
      rcases p with ⟨a, b⟩
      by_cases hp : a = k
      · refine ⟨[], t, ?_, by simp⟩
        have hb : b = v := by
          simpa [alookup, hp] using h
        simp [hp, hb]
      · simp only [alookup, hp, if_false] at h
        rcases ih h with ⟨l1, l2, he, hno⟩
        refine ⟨(a, b) :: l1, l2, by simp [he], ?_⟩
        intro q hq
        rcases List.mem_cons.mp hq with hq | hq
        · rw [hq]
          exact hp
        · exact hno q hq

end AssocLemmas

end VoiceCfg

namespace VoiceCfg

/-! ## Sheets and conversion (`_convert_sheet_to_dict`) -/

/-- A sheet as read by `pd.read_excel(..., header=None)`: a grid of
cells.  pandas pads ragged rows with NaN up to the widest row. -/
abbrev Grid := List (List Scalar)

/-- Reserved instructions sheet, never compiled. -/
def DESCRIBE_SHEET_NAME : String := ".DESC"

/-- Embeds the pandas column count: the widest row of the grid. -/
def gridNCols (g : Grid) : Nat :=
  g.foldl (fun a r => max a r.length) 0

/-- pandas NaN padding of a row to the frame width. -/
def padRow (r : List Scalar) (n : Nat) : List Scalar :=
  r ++ List.replicate (n - r.length) .nan

/-- Embeds the pandas emptiness test of a frame. -/
def gridEmpty (g : Grid) : Bool :=
  g.isEmpty || gridNCols g == 0

/-- The attribute mapping built for one data row
(the inner loop of `_convert_sheet_to_dict`, excel_to_code.py:204-212):
all non-key columns are visited, `item_data[col] = processed_value` with
no emptiness test.  Cells are fetched positionally; pandas label-based
access coincides with positional access when column labels are distinct. -/
def rowItem (columnNames typeDefs row : List Scalar) : List (Scalar × PyVal) :=
  (List.range' 1 (columnNames.length - 1)).foldl
    (fun item i =>
      let value := row.getD i .nan
      let colType := typeDefs.getD i (.str "string")
      aset item (columnNames.getD i .nan) (processValueByType value colType))
    []

/-- A compiled sheet: key cell → attribute mapping. -/
abbrev SheetDict := List (Scalar × List (Scalar × PyVal))

/-- Embeds `_convert_sheet_to_dict` (excel_to_code.py:175-216): row 1 column
names, row 2 descriptions (ignored), row 3 type tags, rows 4.. data;
rows with a NaN or empty-text key are skipped, later duplicate keys overwrite
earlier ones. -/
def convertSheetToDict (g : Grid) : SheetDict :=
  if gridEmpty g then []
  else if g.length < 4 then []
  else
    let n := gridNCols g
    let columnNames := padRow (g.getD 0 []) n
    let typeDefs := padRow (g.getD 2 []) n
    let dataRows := (g.drop 3).map (fun r => padRow r n)
    dataRows.foldl
      (fun result row =>
        let key := row.getD 0 .nan
        if isna key ∨ key = .str "" then result
        else aset result key (rowItem columnNames typeDefs row))
      []

/-! ## Code generation (`_dict_to_python_str`, `_generate_python_code`) -/

def spaces (n : Nat) : String := ⟨List.replicate n ' '⟩

/-- Key rendering in `_dict_to_python_str`:
`_escape_string(key) if isinstance(key, str) else str(key)`. -/
def scalarKeyStr (k : Scalar) : String :=
  match k with
  | .str s => escapeString s
  | v => pyStr v

/-- The scalar branches of `_dict_to_python_str`: bool, then string,
then `str(data)`. -/
def scalarValStr (v : Scalar) : String :=
  match v with
  | .bool b => if b then "True" else "False"
  | .str s => escapeString s
  | v => pyStr v

/-- Embeds `_dict_to_python_str` on a list value. -/
def listToPythonStr (xs : List Scalar) (indent : Nat) : String :=
  if xs.isEmpty then "[]"
  else
    let items := xs.map (fun item => spaces (indent + 2) ++ scalarValStr item)
    "[\n" ++ String.intercalate ",\n" items ++ "\n" ++ spaces indent ++ "]"

/-- Embeds `_dict_to_python_str` on a flat string-keyed mapping. -/
def flatDictToPythonStr (kvs : List (String × Scalar)) (indent : Nat) : String :=
  if kvs.isEmpty then "\x7b\x7d"
  else
    let items := kvs.map
      (fun p => spaces (indent + 2) ++ escapeString p.1 ++ ": " ++ scalarValStr p.2)
    "\x7b\n" ++ String.intercalate ",\n" items ++ "\n" ++ spaces indent ++ "\x7d"

/-- Embeds `_dict_to_python_str` on a coerced value. -/
def pyValToPythonStr (v : PyVal) (indent : Nat) : String :=
  match v with
  | .dict kvs => flatDictToPythonStr kvs indent
  | .list xs => listToPythonStr xs indent
  | .sc s => scalarValStr s

/-- Embeds `_dict_to_python_str` on the attribute mapping of one row. -/
def itemToPythonStr (item : List (Scalar × PyVal)) (indent : Nat) : String :=
  if item.isEmpty then "\x7b\x7d"
  else
    let items := item.map
      (fun p => spaces (indent + 2) ++ scalarKeyStr p.1 ++ ": " ++ pyValToPythonStr p.2 (indent + 2))
    "\x7b\n" ++ String.intercalate ",\n" items ++ "\n" ++ spaces indent ++ "\x7d"

/-- Embeds `_dict_to_python_str` on a compiled sheet (the top-level call in
`_generate_python_code`).  The Python source is one recursive function;
here it is laid out per nesting level of the data it receives. -/
def sheetToPythonStr (sheet : SheetDict) (indent : Nat) : String :=
  if sheet.isEmpty then "\x7b\x7d"
  else
    let items := sheet.map
      (fun p => spaces (indent + 2) ++ scalarKeyStr p.1 ++ ": " ++ itemToPythonStr p.2 (indent + 2))
    "\x7b\n" ++ String.intercalate ",\n" items ++ "\n" ++ spaces indent ++ "\x7d"

/-- Builds the generated constant name: upper-cased config name, underscore, upper-cased sheet name, then the CONFIG suffix. -/
def sheetVarName (configName sheetName : String) : String :=
  pyUpper configName ++ "_" ++ pyUpper sheetName ++ "_CONFIG"

/-- One generated accessor block (excel_to_code.py:370-382). -/
def accessFunc (c s : String) : String :=
  let v := sheetVarName c s
  "\ndef get_" ++ c ++ "_" ++ s ++ "_item(key: str) -> dict:\n    \"\"\"获取" ++ c ++ "_"
    ++ s ++ "配置项\"\"\"\n    return " ++ v
    ++ ".get(key, \x7b\x7d)\n\ndef get_" ++ c ++ "_" ++ s
    ++ "_all() -> dict:\n    \"\"\"获取所有" ++ c ++ "_" ++ s ++ "配置\"\"\"\n    return " ++ v
    ++ "\n\ndef get_" ++ c ++ "_" ++ s ++ "_keys() -> list:\n    \"\"\"获取所有" ++ c ++ "_"
    ++ s ++ "键\"\"\"\n    return list(" ++ v ++ ".keys())\n"

/-- The docstring header of the generated file, containing the generation
timestamp (`datetime.now().isoformat()`, the `now` argument) and the
source path. -/
def pyHeader (configName now excelPath : String) : String :=
  "\"\"\"\nAuto-generated config file for " ++ configName ++ "\nGenerated at: " ++ now
    ++ "\nSource: " ++ excelPath ++ "\n\"\"\"\n\n"

/-- The converted data of one source file: sheet name → compiled sheet,
in insertion order. -/
abbrev ConvertedData := List (String × SheetDict)

/-- One sheet-constant line of the artifact. -/
def sheetConstLine (configName : String) (p : String × SheetDict) : String :=
  sheetVarName configName p.1 ++ " = " ++ sheetToPythonStr p.2 0 ++ "\n\n"

/-- Embeds `_generate_python_code` (excel_to_code.py:363-405): header
docstring, one constant per sheet, a comment line, then the accessor
blocks, accumulated by string concatenation exactly as in the source. -/
def generatePythonCode (configName : String) (data : ConvertedData) (excelPath now : String) :
    String :=
  let accessFunctions := data.map (fun p => accessFunc configName p.1)
  let code := pyHeader configName now excelPath
  let code := data.foldl (fun code p => code ++ sheetConstLine configName p) code
  let code := code ++ "# 便捷访问函数\n"
  accessFunctions.foldl (fun code f => code ++ f) code

/-- The part of the artifact that depends only on the config name and
the compiled data — everything after the docstring header. -/
def pyBody (configName : String) (data : ConvertedData) : String :=
  data.foldl (fun code p => code ++ sheetConstLine configName p) ""
    ++ ("# 便捷访问函数\n"
    ++ (data.map (fun p => accessFunc configName p.1)).foldl (fun code f => code ++ f) "")

end VoiceCfg

namespace VoiceCfg

/-! ## Schema validation (`_validate_value_by_type`, `_validate_sheet`,
`validate_excel_file`, `validate_data_before_conversion`)

Diagnostic *texts* are abbreviated English stand-ins for the
interpolated Chinese messages of the source; every verified statement depends only on
which list a diagnostic lands in, never on its wording. -/

structure ValidationReport where
  errors : List String
  warnings : List String
deriving Repr, DecidableEq

/-- Character class of ASCII letters, digits and underscore, as in the regular expressions of the source. -/
def isAsciiIdentChar (c : Char) : Bool :=
  c.isAlphanum || c = '_'

/-- Embeds the key regular expression: one or more ASCII identifier characters. -/
def matchesKeyRe (s : String) : Bool :=
  !s.data.isEmpty && s.data.all isAsciiIdentChar

/-- Embeds the sheet-name regular expression: a letter or underscore, then identifier characters. -/
def matchesSheetRe (s : String) : Bool :=
  match s.data with
  | [] => false
  | c :: rest => (c.isAlpha || c = '_') && rest.all isAsciiIdentChar

/-- Embeds `_validate_value_by_type` (excel_to_code.py:775-865); the row
number only feeds message text and is omitted. -/
def validateValueByType (value : Scalar) (colType : Scalar) : ValidationReport :=
  if isna value then ⟨[], []⟩
  else
    let t := pyLower (pyStrip (pyStr colType))
    if t = "string" then
      match value with
      | .str s =>
          let warns := if s.length > 1000 then ["string too long"] else []
          let errs :=
            if strContainsChar s '\x00' || strContainsChar s '\x01' || strContainsChar s '\x02' then
              ["contains control characters"]
            else []
          -- the utf-8 encode of the value cannot fail: Lean strings are valid Unicode
          ⟨errs, warns⟩
      | _ => ⟨[], ["expected string type"]⟩
    else if t = "int" then
      match pyIntOfScalar value with
      | Option.none => ⟨["cannot convert to int"], []⟩
      | some n => if n < -(2 ^ 31) ∨ n > 2 ^ 31 - 1 then ⟨[], ["int out of range"]⟩ else ⟨[], []⟩
    else if t = "float" then
      match pyFloatOfScalar value with
      | Option.none => ⟨["cannot convert to float"], []⟩
      | some lit => if floatLitExceedsRange lit then ⟨[], ["float out of range"]⟩ else ⟨[], []⟩
    else if t = "bool" then
      match value with
      | .str s =>
          if pyLower s ∈ ["true", "false", "1", "0", "yes", "no", "是", "否"] then ⟨[], []⟩
          else ⟨[], ["irregular bool format"]⟩
      | _ => ⟨[], []⟩
    else if t = "list" then
      match value with
      | .str s0 =>
          let s := pyStrip s0
          if ¬ (startsWithChar s '[' ∧ endsWithChar s ']') then ⟨[], ["list format should be bracketed"]⟩
          else ⟨[], []⟩
          -- the inner `try` cannot raise and `split` yields a non-empty list,
          -- so neither the nested warning nor the error branch is reachable
      | _ => ⟨[], []⟩
    else if t = "json" then
      match value with
      | .str s0 =>
          let s := pyStrip s0
          if ¬ (startsWithChar s '\x7b' ∧ endsWithChar s '\x7d') then ⟨[], ["json format warning"]⟩
          else
            match jsonParseFlat s with
            | some _ => ⟨[], []⟩
            | Option.none => ⟨["json parse failed"], []⟩
      | _ => ⟨[], []⟩
    else if t = "yaml" then
      match value with
      | .str s0 =>
          let s := pyStrip s0
          if ¬ (startsWithChar s '-' ∨ strContainsChar s ':') then ⟨[], ["irregular yaml format"]⟩
          else
            match yamlLoadModel s with
            | some _ => ⟨[], []⟩
            | Option.none => ⟨["yaml parse failed"], []⟩
      | _ => ⟨[], []⟩
    else ⟨[], []⟩

/-- Embeds `_validate_sheet` (excel_to_code.py:664-773). -/
def validateSheet (g : Grid) (_sheetName : String) : ValidationReport :=
  if gridEmpty g then ⟨["sheet is empty"], []⟩
  else if g.length < 4 then ⟨["at least 4 rows required"], []⟩
  else if gridNCols g < 2 then ⟨["at least 2 columns required"], []⟩
  else
    let n := gridNCols g
    let columnNames := padRow (g.getD 0 []) n
    let typeDefs := padRow (g.getD 2 []) n
    let dataRows := (g.drop 3).map (fun r => padRow r n)
    let _ := columnNames
    let keys := (dataRows.map (fun r => r.getD 0 .nan)).filter (fun k => ¬ isna k)
    let emptyKeyErrs :=
      if (keys.filter (fun k => pyStrip (pyStr k) = "")).isEmpty then [] else ["empty keys found"]
    let dupErrs := if keys.Nodup then [] else ["duplicate keys found"]
    let keyWarns := keys.foldl
      (fun acc k =>
        let ks := pyStrip (pyStr k)
        if ks = "" then acc
        else
          let acc := if ¬ matchesKeyRe ks then acc ++ ["key contains special characters"] else acc
          if ks.length > 50 then acc ++ ["key too long"] else acc)
      []
    let keyTypeErrs :=
      let kt := typeDefs.getD 0 .nan
      if isna kt then ["key column missing type declaration"]
      else
        let kts := pyLower (pyStrip (pyStr kt))
        if kts ∈ ["string", "int"] then []
        else ["key column type not valid, key column only supports string or int"]
    let typeTagWarns := (List.range' 1 (n - 1)).foldl
      (fun acc i =>
        let ct := typeDefs.getD i .nan
        if isna ct then acc ++ ["column missing type definition"]
        else
          let cts := pyLower (pyStrip (pyStr ct))
          if cts ∈ ["string", "int", "float", "bool", "list", "json", "yaml"] then acc
          else acc ++ ["column type not valid"])
      []
    let cellChecks := (List.range' 1 (n - 1)).foldl
      (fun (acc : List String × List String) i =>
        let colType := typeDefs.getD i (.str "string")
        let colRes := dataRows.foldl
          (fun (r : List String × List String) row =>
            let v := row.getD i .nan
            if isna v then r
            else
              let vr := validateValueByType v colType
              (r.1 ++ vr.errors, r.2 ++ vr.warnings))
          ([], [])
        (acc.1 ++ colRes.1, acc.2 ++ colRes.2))
      ([], [])
    let totalCells := dataRows.length * n
    let emptyCells := dataRows.foldl (fun a r => a + (r.filter (fun c => isna c)).length) 0
    let sparsityWarns := if emptyCells * 5 > totalCells * 4 then ["high data sparsity"] else []
    ⟨emptyKeyErrs ++ dupErrs ++ keyTypeErrs ++ cellChecks.1,
     keyWarns ++ typeTagWarns ++ cellChecks.2 ++ sparsityWarns⟩

/-- Embeds `validate_excel_file` (excel_to_code.py:579-637) over the
sheets of the workbook.  The file-existence and zero-size checks concern the
binary container, which the state layer models via the `stat` of the
source file. -/
def validateExcelSheets (sheets : List (String × Grid)) : ValidationReport :=
  let sheetResults := sheets.filterMap
    (fun p => if p.1 = DESCRIBE_SHEET_NAME then Option.none else some (p.1, validateSheet p.2 p.1))
  let validSheets := (sheetResults.filter (fun p => p.2.errors.isEmpty)).length
  let errors0 := sheetResults.foldl
    (fun acc p => acc ++ p.2.errors.map (fun e => p.1 ++ ": " ++ e)) []
  let warnings0 := sheetResults.foldl
    (fun acc p => acc ++ p.2.warnings.map (fun w => p.1 ++ ": " ++ w)) []
  let errors1 := if validSheets == 0 then errors0 ++ ["no valid sheet"] else errors0
  let nameWarns := sheets.foldl
    (fun acc p =>
      let acc :=
        if ¬ matchesSheetRe p.1 ∧ p.1 ≠ DESCRIBE_SHEET_NAME then
          acc ++ ["sheet name contains special characters"]
        else acc
      if p.1.length > 30 then acc ++ ["sheet name too long"] else acc)
    []
  ⟨errors1, warnings0 ++ nameWarns⟩

/-- Embeds `validate_data_before_conversion` (excel_to_code.py:639-662):
true exactly when the report carries no error. -/
def validateDataBeforeConversion (sheets : List (String × Grid)) : Bool :=
  (validateExcelSheets sheets).errors.isEmpty

end VoiceCfg

namespace VoiceCfg

/-! ## The file system, converter and registry state

(`ExcelToCodeConverter` of excel_to_code.py and `ConfigManager` of
config_manager.py).  All mtimes are naturals; `0` is the sentinel the
source uses for "missing".  `now` stands for `datetime.now()`
and `writeTime` for the mtime a freshly written artifact receives. -/

structure ExcelFile where
  mtime : Nat
  sheets : List (String × Grid)
deriving Repr, DecidableEq

structure CodeFile where
  mtime : Nat
  text : String
  data : ConvertedData
deriving Repr, DecidableEq

/-- The observable file system: source files keyed by stem (= config
name), generated files keyed by config name (on disk:
`<name>_config.py`), and the persisted sidecar record
`dev/data/convert_times.json`. -/
structure FS where
  excelFiles : List (String × ExcelFile)
  codeFiles : List (String × CodeFile)
  convertTimes : Option (List (String × Nat × Nat))
deriving Repr, DecidableEq

/-- In-memory staleness maps of the ExcelToCodeConverter class. -/
structure ConverterState where
  excel_modified_time : List (String × Nat)
  module_modified_time : List (String × Nat)
deriving Repr, DecidableEq

/-- Process-local state of ConfigManager: loaded modules and the
non-persisted reload-time record. -/
structure ManagerState where
  loaded_modules : List (String × ConvertedData)
  last_modified : List (String × Nat)
deriving Repr, DecidableEq

def excelDirPath : String := "dev/data/excel"

def codeDirPath : String := "dev/data/code"

/-- Embeds `_save_modified_times` (excel_to_code.py:75-91): the sidecar
content, one `(excel, module)` pair per recorded config, iterating
`excel_modified_time` in insertion order. -/
def combinedTimes (cs : ConverterState) : List (String × Nat × Nat) :=
  cs.excel_modified_time.map
    (fun p => (p.1, p.2, (alookup cs.module_modified_time p.1).getD 0))

/-- Embeds `convert_excel_file` (excel_to_code.py:110-173).  A missing source
file makes the initial `stat` raise; the enclosing handler logs and
returns `None`.  A validation failure raises `ValueError`, likewise
caught.  On success the artifact is written, then both in-memory maps
and the sidecar are updated, and the artifact path is returned. -/
def convertExcelFile (fs : FS) (cs : ConverterState) (stem : String) (now : String)
    (writeTime : Nat) : FS × ConverterState × Option String :=
  match alookup fs.excelFiles stem with
  | Option.none => (fs, cs, Option.none)
  | some ef =>
      let excelMtime := ef.mtime
      let moduleFile := alookup fs.codeFiles stem
      let moduleMtime :=
        match moduleFile with
        | some cf => cf.mtime
        | Option.none => 0
      let lastExcelMtime := (alookup cs.excel_modified_time stem).getD 0
      let lastModuleMtime := (alookup cs.module_modified_time stem).getD 0
      let excelChanged : Bool := (lastExcelMtime == 0) || decide (excelMtime > lastExcelMtime)
      let moduleChanged : Bool := moduleFile.isNone || decide (moduleMtime > lastModuleMtime)
      if !excelChanged && !moduleChanged then (fs, cs, Option.none)
      else if !(validateDataBeforeConversion ef.sheets) then (fs, cs, Option.none)
      else
        let convertedData := ef.sheets.foldl
          (fun acc p =>
            if p.1 = DESCRIBE_SHEET_NAME then acc
            else if gridEmpty p.2 then acc
            else
              let sheetData := convertSheetToDict p.2
              if sheetData.isEmpty then acc else aset acc p.1 sheetData)
          []
        if convertedData.isEmpty then (fs, cs, Option.none)
        else
          let code := generatePythonCode stem convertedData
            (excelDirPath ++ "/" ++ stem ++ ".xlsx") now
          let newCode : CodeFile := ⟨writeTime, code, convertedData⟩
          let fs1 : FS := { fs with codeFiles := aset fs.codeFiles stem newCode }
          let cs1 : ConverterState :=
            { excel_modified_time := aset cs.excel_modified_time stem excelMtime,
              module_modified_time := aset cs.module_modified_time stem writeTime }
          let fs2 : FS := { fs1 with convertTimes := some (combinedTimes cs1) }
          (fs2, cs1, some (codeDirPath ++ "/" ++ stem ++ "_config.py"))

/-- Embeds `ConfigManager._load_config_module` (config_manager.py:36-59).
Executing the generated module is modelled by its stored semantic
content; generated artifacts are assumed to execute without raising. -/
def loadConfigModule (ms : ManagerState) (configName : String) (cf : CodeFile) :
    ManagerState × Option ConvertedData :=
  let currentMtime := cf.mtime
  let doLoad : ManagerState × Option ConvertedData :=
    ({ loaded_modules := aset ms.loaded_modules configName cf.data,
       last_modified := aset ms.last_modified configName currentMtime }, some cf.data)
  match alookup ms.last_modified configName with
  | some lm => if currentMtime ≤ lm then (ms, alookup ms.loaded_modules configName) else doLoad
  | Option.none => doLoad

/-- Embeds `ConfigManager.reload_config` (config_manager.py:61-82): optionally
re-convert when the source exists and its mtime advanced past the
converter record, then load the generated module if its file exists. -/
def reloadConfig (fs : FS) (cs : ConverterState) (ms : ManagerState) (configName : String)
    (checkExcelModified : Bool) (now : String) (writeTime : Nat) :
    FS × ConverterState × ManagerState × Bool :=
  let (fs1, cs1) :=
    if checkExcelModified then
      match alookup fs.excelFiles configName with
      | some ef =>
          let doConvert :=
            match alookup cs.excel_modified_time configName with
            | Option.none => true
            | some t => decide (ef.mtime > t)
          if doConvert then
            let r := convertExcelFile fs cs configName now writeTime
            (r.1, r.2.1)
          else (fs, cs)
      | Option.none => (fs, cs)
    else (fs, cs)
  match alookup fs1.codeFiles configName with
  | some cf =>
      let r := loadConfigModule ms configName cf
      (fs1, cs1, r.1, r.2.isSome)
  | Option.none => (fs1, cs1, ms, false)

/-- Embeds `get_config` with auto reload enabled (config_manager.py:85-90). -/
def getConfig (fs : FS) (cs : ConverterState) (ms : ManagerState) (configName : String)
    (now : String) (writeTime : Nat) :
    FS × ConverterState × ManagerState × Option ConvertedData :=
  let r := reloadConfig fs cs ms configName true now writeTime
  (r.1, r.2.1, r.2.2.1, alookup r.2.2.1.loaded_modules configName)

/-- Embeds `get_config_sheet` (config_manager.py:97-108): build
`<CONFIG>_<SHEET>_CONFIG` and fetch that attribute of the loaded
module. -/
def getConfigSheet (fs : FS) (cs : ConverterState) (ms : ManagerState)
    (configName sheetName : String) (now : String) (writeTime : Nat) :
    FS × ConverterState × ManagerState × Option SheetDict :=
  let r := getConfig fs cs ms configName now writeTime
  match r.2.2.2 with
  | Option.none => (r.1, r.2.1, r.2.2.1, Option.none)
  | some module =>
      let varName := sheetVarName configName sheetName
      match module.find? (fun p => sheetVarName configName p.1 == varName) with
      | some p => (r.1, r.2.1, r.2.2.1, some p.2)
      | Option.none => (r.1, r.2.1, r.2.2.1, Option.none)

/-- Embeds `get_config_value` (config_manager.py:92-95).  The Python
expression `config_sheet and config_sheet.get(key)` yields `None` when
the sheet is absent, the empty sheet itself (the empty mapping `{}`,
here `some []`) when the sheet is empty and falsy, and otherwise
`config_sheet.get(key)` — the attribute mapping, or `None` for a
missing key. -/
def getConfigValue (fs : FS) (cs : ConverterState) (ms : ManagerState)
    (configName sheetName : String) (key : Scalar) (now : String) (writeTime : Nat) :
    Option (List (Scalar × PyVal)) :=
  let r := getConfigSheet fs cs ms configName sheetName now writeTime
  match r.2.2.2 with
  | Option.none => Option.none
  | some s => if s.isEmpty then some [] else alookup s key

end VoiceCfg

namespace VoiceCfg

/-! ## `check_all_configs_up_to_date` (config_manager.py:193-286) -/

/-- One entry of the report details mapping.  Fields the source
leaves out of a particular entry (the orphan entry has only
`excel_file`, `code_file` and `status`) are `Option.none`. -/
structure ConfigDetail where
  excel_file : Option String
  excel_mtime : Option Nat
  code_file : Option String
  code_mtime : Option Nat
  last_converted : Option Nat
  last_module_time : Option Nat
  last_reload_time : Option Nat
  up_to_date : Option Bool
  status : String
  excel_changed : Option Bool
  module_changed : Option Bool
  reload_needed : Option Bool
deriving Repr, DecidableEq

structure UpToDateReport where
  all_up_to_date : Bool
  total_configs : Nat
  up_to_date_configs : Nat
  outdated_configs : List String
  missing_excel_files : List String
  missing_code_files : List String
  details : List (String × ConfigDetail)
deriving Repr, DecidableEq

/-- The glob loops skip editor temp files `~$*` / `.~*`. -/
def isTempStem (stem : String) : Bool :=
  startsWithStr stem "~$" || startsWithStr stem ".~"

/-- The per-source-file loop body of `check_all_configs_up_to_date`. -/
def checkStep (fs : FS) (cs : ConverterState) (ms : ManagerState) (r : UpToDateReport)
    (p : String × ExcelFile) : UpToDateReport :=
  let configName := p.1
  let ef := p.2
  let d0 : ConfigDetail :=
    { excel_file := some (excelDirPath ++ "/" ++ configName ++ ".xlsx"),
      excel_mtime := some ef.mtime,
      code_file := Option.none, code_mtime := Option.none, last_converted := Option.none,
      last_module_time := Option.none, last_reload_time := Option.none,
      up_to_date := some false, status := "unknown",
      excel_changed := Option.none, module_changed := Option.none, reload_needed := Option.none }
  match alookup fs.codeFiles configName with
  | Option.none =>
      { r with
        details := aset r.details configName { d0 with status := "missing_code_file" },
        missing_code_files := r.missing_code_files ++ [configName],
        all_up_to_date := false }
  | some cf =>
      let excelMtime := ef.mtime
      let codeMtime := cf.mtime
      let lastExcelMtime := (alookup cs.excel_modified_time configName).getD 0
      let lastModuleMtime := (alookup cs.module_modified_time configName).getD 0
      let lastReloadTime := (alookup ms.last_modified configName).getD 0
      let excelChanged : Bool := (lastExcelMtime == 0) || decide (excelMtime > lastExcelMtime)
      -- `not code_file.exists()` is false on this branch
      let moduleChanged : Bool := decide (codeMtime > lastModuleMtime)
      let reloadNeeded : Bool := (lastReloadTime == 0) || decide (codeMtime > lastReloadTime)
      let d1 : ConfigDetail :=
        { d0 with
          code_file := some (codeDirPath ++ "/" ++ configName ++ "_config.py"),
          code_mtime := some codeMtime,
          last_converted := some lastExcelMtime,
          last_module_time := some lastModuleMtime,
          last_reload_time := some lastReloadTime }
      if !excelChanged && !moduleChanged && !reloadNeeded then
        { r with
          details := aset r.details configName
            { d1 with up_to_date := some true, status := "up_to_date" },
          up_to_date_configs := r.up_to_date_configs + 1 }
      else
        { r with
          details := aset r.details configName
            { d1 with up_to_date := some false, status := "outdated",
                      excel_changed := some excelChanged,
                      module_changed := some moduleChanged,
                      reload_needed := some reloadNeeded },
          outdated_configs := r.outdated_configs ++ [configName],
          all_up_to_date := false }

/-- The orphan-scan loop body: a generated file whose source no longer
exists is flagged and fails the aggregate. -/
def orphanStep (fs : FS) (r : UpToDateReport) (p : String × CodeFile) : UpToDateReport :=
  let configName := p.1
  match alookup fs.excelFiles configName with
  | some _ => r
  | Option.none =>
      let d : ConfigDetail :=
        { excel_file := Option.none, excel_mtime := Option.none,
          code_file := some (codeDirPath ++ "/" ++ configName ++ "_config.py"),
          code_mtime := Option.none, last_converted := Option.none,
          last_module_time := Option.none, last_reload_time := Option.none,
          up_to_date := Option.none, status := "orphaned_code_file",
          excel_changed := Option.none, module_changed := Option.none,
          reload_needed := Option.none }
      { r with details := aset r.details configName d, all_up_to_date := false }

/-- Embeds `check_all_configs_up_to_date`: scan every (non-temp) source file,
then flag orphaned generated files. -/
def checkAllConfigsUpToDate (fs : FS) (cs : ConverterState) (ms : ManagerState) :
    UpToDateReport :=
  let excelList := fs.excelFiles.filter (fun p => !isTempStem p.1)
  let r0 : UpToDateReport :=
    { all_up_to_date := true, total_configs := excelList.length, up_to_date_configs := 0,
      outdated_configs := [], missing_excel_files := [], missing_code_files := [],
      details := [] }
  let r1 := excelList.foldl (checkStep fs cs ms) r0
  fs.codeFiles.foldl (orphanStep fs) r1

end VoiceCfg

namespace VoiceCfg

/-! ## Generic lemmas about key-indexed folds -/

theorem foldl_aset_lookup_pres {β : Type} (idxs : List Nat) (key : Nat → Scalar)
    (val : Nat → β) (init : List (Scalar × β)) (K : Scalar) (V : β)
    (hsame : ∀ j ∈ idxs, key j = K → val j = V)
    (hinit : alookup init K = some V) :
    alookup (idxs.foldl (fun m j => aset m (key j) (val j)) init) K = some V := by
  induction idxs generalizing init with
  | nil => exact hinit
  | cons j t ih =>
      simp only [List.foldl_cons]
      refine ih _ (fun j' hj' hk => hsame j' (List.mem_cons_of_mem _ hj') hk) ?_
      by_cases hk : key j = K
      · rw [hk, alookup_aset_self]
        rw [hsame j (List.mem_cons_self _ _) hk]
      · rw [alookup_aset_ne _ _ _ _ (fun hh => hk hh.symm)]
        exact hinit

theorem foldl_aset_lookup {β : Type} (idxs : List Nat) (key : Nat → Scalar) (val : Nat → β)
    (init : List (Scalar × β)) (i : Nat) (hmem : i ∈ idxs)
    (hsame : ∀ j ∈ idxs, key j = key i → val j = val i) :
    alookup (idxs.foldl (fun m j => aset m (key j) (val j)) init) (key i) = some (val i) := by
  induction idxs generalizing init with
  | nil => simp at hmem
  | cons j t ih =>
      simp only [List.foldl_cons]
      by_cases hit : i ∈ t
      · exact ih _ hit (fun j' hj' hk => hsame j' (List.mem_cons_of_mem _ hj') hk)
      · have hij : j = i := by
          rcases List.mem_cons.mp hmem with h | h
          · exact h.symm
          · exact absurd h hit
        refine foldl_aset_lookup_pres t key val _ (key i) (val i)
          (fun j' hj' hk => hsame j' (List.mem_cons_of_mem _ hj') hk) ?_
        rw [hij, alookup_aset_self]

/-! ## C2 — string escaping round-trip -/

/-- C2: the claim that every string containing a double quote (or
backslash, newline, carriage return, tab) round-trips through
`_escape_string` is FALSE in the code and TRUE in the intent of the spec:
`_escape_string` escapes `"` *before* `\`, so the one-character string
`"` is emitted as `"\\""` — which is not a single literal denoting `"`
(its backslash got doubled and its quote left bare).  The code
contradicts the documented round-trip contract; escaping the backslash
first was clearly intended. -/
theorem c2_escape_quote_roundtrip_fails :
    escapeString "\"" = "\"\\\\\"\"" ∧
    pyEvalStringLiteral (escapeString "\"") = Option.none ∧
    pyEvalStringLiteral (escapeString "\"") ≠ some "\"" := by
  refine ⟨by decide, by decide, by decide⟩

/-! ## C9 — bool coercion -/

/-- C9 counterexample: the integer cell `1` is not one of the four
true-like string literals, so the claim maps it to false — but the code
falls through to Python truthiness `bool(1)` and yields true. -/
theorem c9_counterexample :
    processValueByType (.int 1) (.str "bool") = .sc (.bool true) ∧
    processValueByType (.int 1) (.str "bool") ≠ .sc (.bool false) := by
  refine ⟨by decide, by decide⟩

/-- The bool coercion the code actually implements (amended spec):
text cells are true exactly for the case-insensitive literals
`true`/`1`/`yes`/`是`; every non-text cell coerces by Python truthiness
(`bool(value)`), so non-zero numbers and `True` map to true. -/
def boolCoercionSpec : Scalar → Bool
  | .str s => decide (pyLower s ∈ ["true", "1", "yes", "是"])
  | v => pyTruthy v

/-- C9 (amended): on every non-missing cell, the `bool` type tag
coerces by `boolCoercionSpec` — true-like literals for strings, Python
truthiness for everything else. -/
theorem c9_bool_coercion_truthiness (v : Scalar) (h : isna v = false) :
    processValueByType v (.str "bool") = .sc (.bool (boolCoercionSpec v)) := by
  cases v with
  | str s =>
      simp only [processValueByType, h, Bool.false_eq_true, if_false]
      rw [if_neg (by decide), if_neg (by decide), if_neg (by decide), if_pos (by decide)]
      rfl
  | int n =>
      simp only [processValueByType, h, Bool.false_eq_true, if_false]
      rw [if_neg (by decide), if_neg (by decide), if_neg (by decide), if_pos (by decide)]
      rfl
  | float lit =>
      simp only [processValueByType, h, Bool.false_eq_true, if_false]
      rw [if_neg (by decide), if_neg (by decide), if_neg (by decide), if_pos (by decide)]
      rfl
  | bool b =>
      simp only [processValueByType, h, Bool.false_eq_true, if_false]
      rw [if_neg (by decide), if_neg (by decide), if_neg (by decide), if_pos (by decide)]
      rfl
  | none => simp [isna] at h
  | nan => simp [isna] at h

theorem c9_bool_coercion_truthiness_witness :
    isna (.int 1) = false ∧
    processValueByType (.int 1) (.str "bool") = .sc (.bool (boolCoercionSpec (.int 1))) :=
  ⟨by decide, c9_bool_coercion_truthiness (.int 1) (by decide)⟩

/-! ## C6 — malformed bracket syntax under the `list` tag -/

/-- C6 counterexample: the malformed bracketed cell `"[a, b"` (opens a
bracket, never closes it) contains a comma, so `_parse_list_value`
falls into the legacy comma-split branch and returns the two-element
list `["[a", "b"]` — not the single-element list `["[a, b"]` the claim
requires. -/
theorem c6_counterexample :
    parseListValue (.str "[a, b") = [.str "[a", .str "b"] ∧
    parseListValue (.str "[a, b") ≠ [.str "[a, b"] := by
  refine ⟨by decide, by decide⟩

/-- C6 (amended): a malformed-bracket string cell degrades to the
single-element list of its raw (stripped) text only when it contains no
comma; with a comma it is split by the legacy comma-separated branch. -/
theorem c6_malformed_brackets_no_comma (s : String)
    (hmal : (startsWithChar (pyStrip s) '[' = true ∧ endsWithChar (pyStrip s) ']' = false) ∨
            (endsWithChar (pyStrip s) ']' = true ∧ startsWithChar (pyStrip s) '[' = false))
    (hnc : strContainsChar (pyStrip s) ',' = false) :
    parseListValue (.str s) = [.str (pyStrip s)] := by
  unfold parseListValue
  rcases hmal with ⟨h1, h2⟩ | ⟨h1, h2⟩ <;> simp [h1, h2, hnc]

theorem c6_malformed_brackets_no_comma_witness :
    ((startsWithChar (pyStrip "[a b") '[' = true ∧ endsWithChar (pyStrip "[a b") ']' = false) ∨
      (endsWithChar (pyStrip "[a b") ']' = true ∧ startsWithChar (pyStrip "[a b") '[' = false)) ∧
    strContainsChar (pyStrip "[a b") ',' = false ∧
    parseListValue (.str "[a b") = [.str (pyStrip "[a b")] :=
  ⟨Or.inl ⟨by decide, by decide⟩, by decide,
    c6_malformed_brackets_no_comma "[a b" (Or.inl ⟨by decide, by decide⟩) (by decide)⟩

end VoiceCfg

namespace VoiceCfg

/-! ## C4 — empty cells in data rows -/

/-- Evaluating `processValueByType` on a missing cell gives Python `None`. -/
theorem processValueByType_isna (v colType : Scalar) (h : isna v = true) :
    processValueByType v colType = .sc .none := by
  unfold processValueByType
  rw [h]
  rfl

/-- A 4-row sheet whose single data row has an empty `Name` cell. -/
def c4Grid : Grid :=
  [[.str "id", .str "Name"], [.str "d1", .str "d2"], [.str "string", .str "string"],
   [.str "k", .nan]]

/-- C4 counterexample: compiling `c4Grid` yields an attribute mapping
in which the column key `Name` is *present* and mapped to `None` — the
claim says the key is omitted from the mapping. -/
theorem c4_counterexample :
    alookup (convertSheetToDict c4Grid) (.str "k") = some [(.str "Name", PyVal.sc .none)] ∧
    alookup [((Scalar.str "Name"), PyVal.sc .none)] (.str "Name") = some (.sc .none) := by
  refine ⟨by decide, by decide⟩

/-- C4 (amended): an empty/missing cell does not drop its column from
the attribute mapping of the row; the column key is present and mapped to
the null value `None` — never to the empty string or zero.  (The
distinctness hypothesis matches pandas label-based access, which
requires distinct column labels.) -/
theorem c4_empty_cell_maps_to_none (columnNames typeDefs row : List Scalar) (i : Nat)
    (h1 : 1 ≤ i) (h2 : i < columnNames.length)
    (hna : isna (row.getD i .nan) = true)
    (hdist : ∀ j, 1 ≤ j → j < columnNames.length →
        columnNames.getD j .nan = columnNames.getD i .nan → j = i) :
    alookup (rowItem columnNames typeDefs row) (columnNames.getD i .nan)
      = some (.sc .none) := by
  have hmem : i ∈ List.range' 1 (columnNames.length - 1) := by
    rw [List.mem_range'_1]
    omega
  have hsame : ∀ j ∈ List.range' 1 (columnNames.length - 1),
      columnNames.getD j .nan = columnNames.getD i .nan →
      processValueByType (row.getD j .nan) (typeDefs.getD j (.str "string")) =
        processValueByType (row.getD i .nan) (typeDefs.getD i (.str "string")) := by
    intro j hj hkey
    rw [List.mem_range'_1] at hj
    have hji : j = i := hdist j hj.1 (by omega) hkey
    rw [hji]
  have hlk2 : alookup (rowItem columnNames typeDefs row) (columnNames.getD i .nan) =
      some (processValueByType (row.getD i .nan) (typeDefs.getD i (.str "string"))) :=
    foldl_aset_lookup (List.range' 1 (columnNames.length - 1))
      (fun j => columnNames.getD j .nan)
      (fun j => processValueByType (row.getD j .nan) (typeDefs.getD j (.str "string")))
      [] i hmem hsame
  rw [hlk2, processValueByType_isna _ _ hna]

theorem c4_empty_cell_maps_to_none_witness :
    1 ≤ 1 ∧ 1 < ([Scalar.str "id", Scalar.str "Name"] : List Scalar).length ∧
    isna (([Scalar.str "k", Scalar.nan] : List Scalar).getD 1 .nan) = true ∧
    alookup (rowItem [Scalar.str "id", Scalar.str "Name"]
        [Scalar.str "string", Scalar.str "string"] [Scalar.str "k", Scalar.nan])
        (([Scalar.str "id", Scalar.str "Name"] : List Scalar).getD 1 .nan)
      = some (.sc .none) :=
  ⟨by decide, by decide, by decide,
    c4_empty_cell_maps_to_none [Scalar.str "id", Scalar.str "Name"]
      [Scalar.str "string", Scalar.str "string"] [Scalar.str "k", Scalar.nan] 1
      (by decide) (by decide) (by decide)
      (by
        intro j hj1 hj2 _
        have hj2' : j < 2 := by simpa using hj2
        omega)⟩

/-! ## C1 — determinism of the code generator -/

theorem foldl_append_factor_id (l : List String) (a : String) :
    l.foldl (fun acc x => acc ++ x) a = a ++ l.foldl (fun acc x => acc ++ x) "" := by
  induction l generalizing a with
  | nil => simp [strAppendEmptyRight]
  | cons h t ih =>
      simp only [List.foldl_cons]
      rw [ih (a ++ h), ih ("" ++ h), strEmptyAppend, strAppendAssoc]

/-- The generated artifact decomposes as its timestamped header
followed by a body that depends only on the config name and the
compiled data. -/
theorem pyBody_decomposition (configName : String) (data : ConvertedData)
    (excelPath now : String) :
    generatePythonCode configName data excelPath now =
      pyHeader configName now excelPath ++ pyBody configName data := by
  unfold generatePythonCode pyBody
  dsimp only
  rw [foldl_append_factor (sheetConstLine configName) data (pyHeader configName now excelPath)]
  rw [foldl_append_factor_id (data.map fun p => accessFunc configName p.1)]
  rw [strAppendAssoc, strAppendAssoc]

/-- C1 counterexample: generation embeds `datetime.now().isoformat()`
in the artifact docstring, so two invocations on identical input at
different instants produce different bytes. -/
theorem c1_counterexample :
    generatePythonCode "c" [] "dev/data/excel/c.xlsx" "2025-01-01T00:00:00"
      ≠ generatePythonCode "c" [] "dev/data/excel/c.xlsx" "2025-01-01T00:00:01" := by
  decide

/-- C1 (amended): the generator is deterministic modulo its header
docstring: for the same config name and compiled data, any two
invocations (any timestamps, any source paths) emit the same bytes
after their headers — the entire remainder is a function of
`(configName, data)` alone. -/
theorem c1_generator_deterministic_modulo_header (configName : String) (data : ConvertedData)
    (excelPath1 now1 excelPath2 now2 : String) :
    generatePythonCode configName data excelPath1 now1 =
      pyHeader configName now1 excelPath1 ++ pyBody configName data ∧
    generatePythonCode configName data excelPath2 now2 =
      pyHeader configName now2 excelPath2 ++ pyBody configName data :=
  ⟨pyBody_decomposition configName data excelPath1 now1,
   pyBody_decomposition configName data excelPath2 now2⟩

end VoiceCfg

namespace VoiceCfg

/-! ## Helper facts about `convertExcelFile` -/

theorem isEmpty_false_of_ne_nil {α : Type} {l : List α} (h : l ≠ []) : l.isEmpty = false := by
  cases l with
  | nil => exact absurd rfl h
  | cons a t => rfl

theorem foldl_append_init_ne_nil {α β : Type} (f : α → List β) (l : List α) (init : List β)
    (h : init ≠ []) : l.foldl (fun acc x => acc ++ f x) init ≠ [] := by
  induction l generalizing init with
  | nil => exact h
  | cons a t ih =>
      simp only [List.foldl_cons]
      refine ih _ ?_
      simp [List.append_eq_nil, h]

theorem foldl_append_ne_nil {α β : Type} (f : α → List β) (l : List α) (init : List β)
    (a : α) (ha : a ∈ l) (hf : f a ≠ []) :
    l.foldl (fun acc x => acc ++ f x) init ≠ [] := by
  induction l generalizing init with
  | nil => simp at ha
  | cons b t ih =>
      simp only [List.foldl_cons]
      rcases List.mem_cons.mp ha with h | h
      · rw [← h]
        refine foldl_append_init_ne_nil f t _ ?_
        simp [List.append_eq_nil, hf]
      · exact ih _ h

/-- One non-reserved sheet with a non-empty error list forces the whole
validation of the whole workbook to fail. -/
theorem validate_false_of_sheet_error (sheets : List (String × Grid)) (name : String)
    (g : Grid) (hmem : (name, g) ∈ sheets) (hname : name ≠ DESCRIBE_SHEET_NAME)
    (herr : (validateSheet g name).errors ≠ []) :
    validateDataBeforeConversion sheets = false := by
  unfold validateDataBeforeConversion validateExcelSheets
  dsimp only
  apply isEmpty_false_of_ne_nil
  split
  · simp [List.append_eq_nil]
  · apply foldl_append_ne_nil _ _ _ (name, validateSheet g name)
    · exact List.mem_filterMap.mpr ⟨(name, g), hmem, by simp [hname]⟩
    · simpa [List.map_eq_nil_iff] using herr

/-- A failing validation freezes the whole converter state: nothing is
written and `None` is returned. -/
theorem convert_aborts_of_invalid (fs : FS) (cs : ConverterState) (stem now : String)
    (writeTime : Nat) (ef : ExcelFile)
    (hef : alookup fs.excelFiles stem = some ef)
    (hv : validateDataBeforeConversion ef.sheets = false) :
    convertExcelFile fs cs stem now writeTime = (fs, cs, Option.none) := by
  unfold convertExcelFile
  rw [hef]
  dsimp only
  split
  · rfl
  · rw [hv]
    rfl

/-- Full case analysis of `convert_excel_file`: either the call leaves
everything untouched and returns `None`, or validation passed, the
artifact was (re)written with mtime `writeTime`, both staleness maps
were set, and the sidecar was rewritten from them. -/
theorem convertExcelFile_cases (fs : FS) (cs : ConverterState) (stem now : String)
    (writeTime : Nat) :
    convertExcelFile fs cs stem now writeTime = (fs, cs, Option.none) ∨
    ∃ ef : ExcelFile, ∃ cd : ConvertedData,
      alookup fs.excelFiles stem = some ef ∧
      validateDataBeforeConversion ef.sheets = true ∧
      cd ≠ [] ∧
      convertExcelFile fs cs stem now writeTime =
        ({ excelFiles := fs.excelFiles,
           codeFiles := aset fs.codeFiles stem
             ⟨writeTime,
              generatePythonCode stem cd (excelDirPath ++ "/" ++ stem ++ ".xlsx") now, cd⟩,
           convertTimes := some (combinedTimes
             ⟨aset cs.excel_modified_time stem ef.mtime,
              aset cs.module_modified_time stem writeTime⟩) },
         ⟨aset cs.excel_modified_time stem ef.mtime,
          aset cs.module_modified_time stem writeTime⟩,
         some (codeDirPath ++ "/" ++ stem ++ "_config.py")) := by
  unfold convertExcelFile
  cases hef : alookup fs.excelFiles stem with
  | none => exact Or.inl rfl
  | some ef =>
      dsimp only
      split
      · exact Or.inl rfl
      · split
        · exact Or.inl rfl
        · rename_i hvfalse
          split
          · exact Or.inl rfl
          · rename_i hcd
            refine Or.inr ⟨ef, _, rfl, ?_, ?_, rfl⟩
            · simpa using hvfalse
            · intro hnil
              rw [hnil] at hcd
              exact hcd (by rfl)

end VoiceCfg

namespace VoiceCfg

/-! ## C7 — idempotence on an unchanged source -/

/-- C7: when the recorded source mtime and the recorded artifact mtime
both match the current file mtimes (and the source has a real, nonzero
mtime, i.e. a previous compile was recorded), `convert_excel_file` is a
no-op: it returns `None`, the artifact bytes and mtime are untouched,
and both the in-memory staleness maps and the persisted sidecar are
exactly as before. -/
theorem c7_unchanged_conversion_noop (fs : FS) (cs : ConverterState) (stem now : String)
    (writeTime : Nat) (ef : ExcelFile) (cf : CodeFile)
    (hef : alookup fs.excelFiles stem = some ef)
    (hcf : alookup fs.codeFiles stem = some cf)
    (hre : alookup cs.excel_modified_time stem = some ef.mtime)
    (hrm : alookup cs.module_modified_time stem = some cf.mtime)
    (hpos : 0 < ef.mtime) :
    convertExcelFile fs cs stem now writeTime = (fs, cs, Option.none) := by
  have h0 : (ef.mtime == 0) = false := by
    rw [Bool.eq_false_iff]
    intro hc
    have : ef.mtime = 0 := by simpa using hc
    omega
  have h1 : decide (ef.mtime > ef.mtime) = false := by simp
  have h3 : decide (cf.mtime > cf.mtime) = false := by simp
  unfold convertExcelFile
  rw [hef]
  dsimp only
  rw [hcf, hre, hrm]
  dsimp only [Option.getD_some, Option.isNone_some]
  rw [h0, h1, h3]
  rfl

def c7Grid : Grid :=
  [[.str "id", .str "Name"], [.str "d1", .str "d2"], [.str "string", .str "string"],
   [.str "k", .str "v"]]

def c7Excel : ExcelFile := ⟨5, [("main", c7Grid)]⟩

def c7Code : CodeFile := ⟨7, "artifact", [("main", [(.str "k", [(.str "Name", .sc (.str "v"))])])]⟩

def c7FS : FS := ⟨[("c", c7Excel)], [("c", c7Code)], some [("c", 5, 7)]⟩

def c7CS : ConverterState := ⟨[("c", 5)], [("c", 7)]⟩

theorem c7_unchanged_conversion_noop_witness :
    alookup c7FS.excelFiles "c" = some c7Excel ∧
    alookup c7FS.codeFiles "c" = some c7Code ∧
    alookup c7CS.excel_modified_time "c" = some c7Excel.mtime ∧
    alookup c7CS.module_modified_time "c" = some c7Code.mtime ∧
    0 < c7Excel.mtime ∧
    convertExcelFile c7FS c7CS "c" "2025-01-01T00:00:00" 9 = (c7FS, c7CS, Option.none) :=
  ⟨by decide, by decide, by decide, by decide, by decide,
    c7_unchanged_conversion_noop c7FS c7CS "c" "2025-01-01T00:00:00" 9 c7Excel c7Code
      (by decide) (by decide) (by decide) (by decide) (by decide)⟩

/-! ## C10 — failure atomicity of the staleness records -/

/-- C10: the staleness records are updated atomically with the write.
Whenever `convert_excel_file` returns `None` (mtime skip, validation
failure, missing source, no convertible data) the entire state — both
in-memory maps, the sidecar file and every generated artifact — is
exactly as before the call; and whenever it succeeds, the artifact was
written (mtime `writeTime`), and the per-config entries of both maps
and the sidecar were all set in the same call. -/
theorem c10_failed_conversion_preserves_records (fs : FS) (cs : ConverterState)
    (stem now : String) (writeTime : Nat) :
    ((convertExcelFile fs cs stem now writeTime).2.2 = Option.none →
      convertExcelFile fs cs stem now writeTime = (fs, cs, Option.none)) ∧
    ((convertExcelFile fs cs stem now writeTime).2.2 ≠ Option.none →
      ∃ cf : CodeFile, cf.mtime = writeTime ∧
        (convertExcelFile fs cs stem now writeTime).1.codeFiles = aset fs.codeFiles stem cf ∧
        (convertExcelFile fs cs stem now writeTime).1.convertTimes =
          some (combinedTimes (convertExcelFile fs cs stem now writeTime).2.1) ∧
        alookup (convertExcelFile fs cs stem now writeTime).2.1.excel_modified_time stem
          ≠ Option.none ∧
        alookup (convertExcelFile fs cs stem now writeTime).2.1.module_modified_time stem
          = some writeTime) := by
  rcases convertExcelFile_cases fs cs stem now writeTime with h | ⟨ef, cd, _, _, _, h⟩
  · constructor
    · intro _
      exact h
    · intro hne
      rw [h] at hne
      exact absurd rfl hne
  · constructor
    · intro hnone
      rw [h] at hnone
      exact absurd hnone (by simp)
    · intro _
      refine ⟨⟨writeTime,
        generatePythonCode stem cd (excelDirPath ++ "/" ++ stem ++ ".xlsx") now, cd⟩,
        rfl, ?_, ?_, ?_, ?_⟩
      · rw [h]
      · rw [h]
      · rw [h]
        dsimp only
        rw [alookup_aset_self]
        exact fun hc => Option.noConfusion hc
      · rw [h]
        dsimp only
        rw [alookup_aset_self]

def c10Grid : Grid :=
  [[.str "id", .str "Val"], [.str "d", .str "d"], [.str "float", .str "string"],
   [.str "k", .str "v"]]

def c10FS : FS := ⟨[("c", ⟨5, [("main", c10Grid)]⟩)], [], Option.none⟩

def c10CS : ConverterState := ⟨[], []⟩

theorem c10_failed_conversion_preserves_records_witness :
    (convertExcelFile c10FS c10CS "c" "t" 9).2.2 = Option.none ∧
    convertExcelFile c10FS c10CS "c" "t" 9 = (c10FS, c10CS, Option.none) :=
  ⟨by decide,
    (c10_failed_conversion_preserves_records c10FS c10CS "c" "t" 9).1 (by decide)⟩

/-! ## C5 — validation errors abort the whole file -/

/-- C5: if any non-reserved sheet of a source file validates with at
least one error — in particular a key column whose declared type is not
`string`/`int`, such as `float` — conversion of the entire file aborts:
`convert_excel_file` returns `None` and the whole observable state,
including the bytes and mtime of every previously generated artifact,
is exactly as before. -/
theorem c5_validation_error_aborts_conversion (fs : FS) (cs : ConverterState)
    (stem now : String) (writeTime : Nat) (ef : ExcelFile) (name : String) (g : Grid)
    (hef : alookup fs.excelFiles stem = some ef)
    (hmem : (name, g) ∈ ef.sheets) (hname : name ≠ DESCRIBE_SHEET_NAME)
    (herr : (validateSheet g name).errors ≠ []) :
    convertExcelFile fs cs stem now writeTime = (fs, cs, Option.none) :=
  convert_aborts_of_invalid fs cs stem now writeTime ef hef
    (validate_false_of_sheet_error ef.sheets name g hmem hname herr)

def c5Grid : Grid :=
  [[.str "id", .str "Val"], [.str "d", .str "d"], [.str "float", .str "string"],
   [.str "k", .str "v"]]

def c5Excel : ExcelFile := ⟨5, [("main", c5Grid)]⟩

def c5Code : CodeFile := ⟨3, "previous artifact bytes", [("main", [])]⟩

def c5FS : FS := ⟨[("c", c5Excel)], [("c", c5Code)], Option.none⟩

def c5CS : ConverterState := ⟨[], []⟩

theorem c5_validation_error_aborts_conversion_witness :
    alookup c5FS.excelFiles "c" = some c5Excel ∧
    ("main", c5Grid) ∈ c5Excel.sheets ∧
    "main" ≠ DESCRIBE_SHEET_NAME ∧
    (validateSheet c5Grid "main").errors ≠ [] ∧
    convertExcelFile c5FS c5CS "c" "t" 9 = (c5FS, c5CS, Option.none) :=
  ⟨by decide, by decide, by decide, by decide,
    c5_validation_error_aborts_conversion c5FS c5CS "c" "t" 9 c5Excel "main" c5Grid
      (by decide) (by decide) (by decide) (by decide)⟩

end VoiceCfg

namespace VoiceCfg

/-! ## C3 — reload when the source fails validation -/

def c3Grid : Grid :=
  [[.str "id", .str "Val"], [.str "d", .str "d"], [.str "float", .str "string"],
   [.str "k", .str "v"]]

def c3Excel : ExcelFile := ⟨5, [("main", c3Grid)]⟩

def c3Code : CodeFile :=
  ⟨3, "previous artifact bytes", [("main", [(.str "old", [(.str "Val", .sc (.str "V"))])])]⟩

def c3FS : FS := ⟨[("c", c3Excel)], [("c", c3Code)], Option.none⟩

def c3CS : ConverterState := ⟨[], []⟩

def c3MS : ManagerState := ⟨[], []⟩

/-- C3 counterexample: the source file exists and fails validation (its
key column is declared `float`), a previously generated artifact
exists — and `reload_config` returns TRUE, not false: conversion fails
silently and the stale artifact is loaded successfully. -/
theorem c3_counterexample :
    alookup c3FS.excelFiles "c" = some c3Excel ∧
    (validateSheet c3Grid "main").errors ≠ [] ∧
    (reloadConfig c3FS c3CS c3MS "c" true "t" 9).2.2.2 = true ∧
    alookup (reloadConfig c3FS c3CS c3MS "c" true "t" 9).2.2.1.loaded_modules "c"
      = some c3Code.data := by
  refine ⟨by decide, by decide, by decide, by decide⟩

/-- C3 (amended): when the source file exists and fails validation,
`reload_config` never touches the file system (no artifact written, the
previous artifact keeps its bytes), leaves the previously compiled data
readable, and returns true exactly when a previously generated artifact
exists (it silently loads the stale artifact); it returns false only
when no artifact exists.  The hypothesis `hinv` is the class invariant
that `last_modified` and `loaded_modules` are populated together. -/
theorem c3_reload_on_invalid_source (fs : FS) (cs : ConverterState) (ms : ManagerState)
    (configName now : String) (writeTime : Nat) (ef : ExcelFile) (name : String) (g : Grid)
    (hef : alookup fs.excelFiles configName = some ef)
    (hmem : (name, g) ∈ ef.sheets) (hname : name ≠ DESCRIBE_SHEET_NAME)
    (herr : (validateSheet g name).errors ≠ [])
    (hinv : ∀ t, alookup ms.last_modified configName = some t →
        (alookup ms.loaded_modules configName).isSome = true) :
    (reloadConfig fs cs ms configName true now writeTime).1 = fs ∧
    (reloadConfig fs cs ms configName true now writeTime).2.1 = cs ∧
    (reloadConfig fs cs ms configName true now writeTime).2.2.2 =
      (alookup fs.codeFiles configName).isSome ∧
    (∀ cf, alookup fs.codeFiles configName = some cf →
      alookup (reloadConfig fs cs ms configName true now writeTime).2.2.1.loaded_modules
          configName = some cf.data ∨
      alookup (reloadConfig fs cs ms configName true now writeTime).2.2.1.loaded_modules
          configName = alookup ms.loaded_modules configName) := by
  have hv := validate_false_of_sheet_error ef.sheets name g hmem hname herr
  have habort := convert_aborts_of_invalid fs cs configName now writeTime ef hef hv
  unfold reloadConfig
  rw [if_pos rfl, hef]
  dsimp only
  have hpair :
      (if (match alookup cs.excel_modified_time configName with
            | Option.none => true
            | some t => decide (ef.mtime > t)) = true then
        ((convertExcelFile fs cs configName now writeTime).1,
         (convertExcelFile fs cs configName now writeTime).2.1)
      else (fs, cs)) = (fs, cs) := by
    split
    · rw [habort]
    · rfl
  rw [hpair]
  cases hcf : alookup fs.codeFiles configName with
  | none =>
      refine ⟨rfl, rfl, rfl, ?_⟩
      intro cf hc
      exact absurd hc (by simp)
  | some cf =>
      dsimp only
      unfold loadConfigModule
      cases hlm : alookup ms.last_modified configName with
      | none =>
          dsimp only
          refine ⟨rfl, rfl, rfl, ?_⟩
          intro cf' hc
          left
          have : cf' = cf := (Option.some.inj hc).symm
          rw [this]
          exact alookup_aset_self _ _ _
      | some lm =>
          dsimp only
          split
          · rename_i hle
            have hsome := hinv lm hlm
            refine ⟨rfl, rfl, ?_, ?_⟩
            · rw [hsome]
              rfl
            · intro cf' _
              right
              rfl
          · dsimp only
            refine ⟨rfl, rfl, rfl, ?_⟩
            intro cf' hc
            left
            have : cf' = cf := (Option.some.inj hc).symm
            rw [this]
            exact alookup_aset_self _ _ _

theorem c3_reload_on_invalid_source_witness :
    alookup c3FS.excelFiles "c" = some c3Excel ∧
    (reloadConfig c3FS c3CS c3MS "c" true "t" 9).1 = c3FS ∧
    (reloadConfig c3FS c3CS c3MS "c" true "t" 9).2.1 = c3CS ∧
    (reloadConfig c3FS c3CS c3MS "c" true "t" 9).2.2.2 =
      (alookup c3FS.codeFiles "c").isSome :=
  ⟨by decide,
    (c3_reload_on_invalid_source c3FS c3CS c3MS "c" "t" 9 c3Excel "main" c3Grid
      (by decide) (by decide) (by decide) (by decide)
      (fun t ht => Option.noConfusion ht)).1,
    (c3_reload_on_invalid_source c3FS c3CS c3MS "c" "t" 9 c3Excel "main" c3Grid
      (by decide) (by decide) (by decide) (by decide)
      (fun t ht => Option.noConfusion ht)).2.1,
    (c3_reload_on_invalid_source c3FS c3CS c3MS "c" "t" 9 c3Excel "main" c3Grid
      (by decide) (by decide) (by decide) (by decide)
      (fun t ht => Option.noConfusion ht)).2.2.1⟩

end VoiceCfg

namespace VoiceCfg

/-! ## C8 — orphan detection and the startup gate -/

/-- The `details` entry the orphan scan writes. -/
def orphanDetail (configName : String) : ConfigDetail :=
  { excel_file := Option.none, excel_mtime := Option.none,
    code_file := some (codeDirPath ++ "/" ++ configName ++ "_config.py"),
    code_mtime := Option.none, last_converted := Option.none,
    last_module_time := Option.none, last_reload_time := Option.none,
    up_to_date := Option.none, status := "orphaned_code_file",
    excel_changed := Option.none, module_changed := Option.none,
    reload_needed := Option.none }

theorem orphanStep_found (fs : FS) (r : UpToDateReport) (c : String) (cf : CodeFile)
    (hex : alookup fs.excelFiles c = Option.none) :
    orphanStep fs r (c, cf) =
      { r with details := aset r.details c (orphanDetail c), all_up_to_date := false } := by
  unfold orphanStep
  dsimp only
  rw [hex]
  rfl

theorem orphanStep_details_ne (fs : FS) (r : UpToDateReport) (p : String × CodeFile)
    (c : String) (hne : p.1 ≠ c) :
    alookup (orphanStep fs r p).details c = alookup r.details c := by
  unfold orphanStep
  dsimp only
  cases alookup fs.excelFiles p.1 with
  | none =>
      dsimp only
      exact alookup_aset_ne _ _ _ _ (fun hh => hne hh.symm)
  | some _ => rfl

theorem orphanStep_keeps_false (fs : FS) (r : UpToDateReport) (p : String × CodeFile)
    (hf : r.all_up_to_date = false) : (orphanStep fs r p).all_up_to_date = false := by
  unfold orphanStep
  dsimp only
  cases alookup fs.excelFiles p.1 with
  | none => rfl
  | some _ => exact hf

theorem fold_orphan_preserve (fs : FS) (l : List (String × CodeFile)) (r : UpToDateReport)
    (c : String) (d : ConfigDetail) (hkeys : ∀ p ∈ l, p.1 ≠ c)
    (hf : r.all_up_to_date = false) (hd : alookup r.details c = some d) :
    (l.foldl (orphanStep fs) r).all_up_to_date = false ∧
    alookup (l.foldl (orphanStep fs) r).details c = some d := by
  induction l generalizing r with
  | nil => exact ⟨hf, hd⟩
  | cons p t ih =>
      simp only [List.foldl_cons]
      refine ih _ (fun q hq => hkeys q (List.mem_cons_of_mem _ hq))
        (orphanStep_keeps_false fs r p hf) ?_
      rw [orphanStep_details_ne fs r p c (hkeys p (List.mem_cons_self _ _))]
      exact hd

theorem checkStep_details_ne (fs : FS) (cs : ConverterState) (ms : ManagerState)
    (r : UpToDateReport) (p : String × ExcelFile) (c : String) (hne : p.1 ≠ c) :
    alookup (checkStep fs cs ms r p).details c = alookup r.details c := by
  unfold checkStep
  dsimp only
  have hne' : c ≠ p.1 := fun hh => hne hh.symm
  cases alookup fs.codeFiles p.1 with
  | none =>
      dsimp only
      exact alookup_aset_ne _ _ _ _ hne'
  | some cf =>
      dsimp only
      split
      · exact alookup_aset_ne _ _ _ _ hne'
      · exact alookup_aset_ne _ _ _ _ hne'

theorem fold_check_details (fs : FS) (cs : ConverterState) (ms : ManagerState)
    (l : List (String × ExcelFile)) (r : UpToDateReport) (c : String)
    (hkeys : ∀ p ∈ l, p.1 ≠ c) :
    alookup (l.foldl (checkStep fs cs ms) r).details c = alookup r.details c := by
  induction l generalizing r with
  | nil => rfl
  | cons p t ih =>
      simp only [List.foldl_cons]
      rw [ih _ (fun q hq => hkeys q (List.mem_cons_of_mem _ hq))]
      exact checkStep_details_ne fs cs ms r p c (hkeys p (List.mem_cons_self _ _))

/-- The per-report invariant backing the startup gate: a true aggregate
flag means every recorded detail is `up_to_date`. -/
def GateInv (r : UpToDateReport) : Prop :=
  r.all_up_to_date = true → ∀ q ∈ r.details, q.2.status = "up_to_date"

theorem checkStep_gateInv (fs : FS) (cs : ConverterState) (ms : ManagerState)
    (r : UpToDateReport) (p : String × ExcelFile) (hr : GateInv r) :
    GateInv (checkStep fs cs ms r p) := by
  unfold checkStep
  dsimp only
  cases alookup fs.codeFiles p.1 with
  | none =>
      intro h
      exact absurd h (by simp)
  | some cf =>
      dsimp only
      split
      · intro h q hq
        rcases mem_aset hq with hq | hq
        · rw [hq]
        · exact hr h q hq
      · intro h
        exact absurd h (by simp)

theorem orphanStep_gateInv (fs : FS) (r : UpToDateReport) (p : String × CodeFile)
    (hr : GateInv r) : GateInv (orphanStep fs r p) := by
  unfold orphanStep
  dsimp only
  cases alookup fs.excelFiles p.1 with
  | none =>
      intro h
      exact absurd h (by simp)
  | some _ => exact hr

theorem fold_check_gateInv (fs : FS) (cs : ConverterState) (ms : ManagerState)
    (l : List (String × ExcelFile)) (r : UpToDateReport) (hr : GateInv r) :
    GateInv (l.foldl (checkStep fs cs ms) r) := by
  induction l generalizing r with
  | nil => exact hr
  | cons p t ih =>
      simp only [List.foldl_cons]
      exact ih _ (checkStep_gateInv fs cs ms r p hr)

theorem fold_orphan_gateInv (fs : FS) (l : List (String × CodeFile)) (r : UpToDateReport)
    (hr : GateInv r) : GateInv (l.foldl (orphanStep fs) r) := by
  induction l generalizing r with
  | nil => exact hr
  | cons p t ih =>
      simp only [List.foldl_cons]
      exact ih _ (orphanStep_gateInv fs r p hr)

/-- A true aggregate flag forces every detail to `up_to_date`. -/
theorem checkAll_gate (fs : FS) (cs : ConverterState) (ms : ManagerState) :
    GateInv (checkAllConfigsUpToDate fs cs ms) := by
  unfold checkAllConfigsUpToDate
  dsimp only
  apply fold_orphan_gateInv
  apply fold_check_gateInv
  intro _ q hq
  simp [alookup] at hq

/-- Orphan scan: a generated file with no matching source is reported
`orphaned_code_file` and fails the aggregate. -/
theorem checkAll_orphan (fs : FS) (cs : ConverterState) (ms : ManagerState)
    (c : String) (cf : CodeFile)
    (hcf : alookup fs.codeFiles c = some cf)
    (hex : alookup fs.excelFiles c = Option.none)
    (hnd : (fs.codeFiles.map Prod.fst).Nodup) :
    (checkAllConfigsUpToDate fs cs ms).all_up_to_date = false ∧
    alookup (checkAllConfigsUpToDate fs cs ms).details c = some (orphanDetail c) := by
  obtain ⟨l1, l2, hsplit, hl1⟩ := alookup_some_split hcf
  have hl2 : ∀ p ∈ l2, p.1 ≠ c := by
    rw [hsplit] at hnd
    simp only [List.map_append, List.map_cons] at hnd
    have h2 := hnd.of_append_right
    rw [List.nodup_cons] at h2
    intro p hp hpc
    exact h2.1 (hpc ▸ List.mem_map_of_mem Prod.fst hp)
  unfold checkAllConfigsUpToDate
  dsimp only
  rw [hsplit, List.foldl_append, List.foldl_cons, orphanStep_found fs _ c cf hex]
  exact fold_orphan_preserve fs l2 _ c (orphanDetail c) hl2 rfl (alookup_aset_self _ _ _)

end VoiceCfg

namespace VoiceCfg

/-- With the source file gone, the auto-reload inside `get_config_value`
skips conversion, loads (or keeps) the last generated artifact, and the
accessor serves the compiled data of that artifact. -/
theorem getConfigValue_orphan (fs : FS) (cs : ConverterState) (ms : ManagerState)
    (configName sheetName : String) (key : Scalar) (now : String) (writeTime : Nat)
    (cf : CodeFile)
    (hex : alookup fs.excelFiles configName = Option.none)
    (hcf : alookup fs.codeFiles configName = some cf)
    (hload : alookup ms.last_modified configName = Option.none ∨
             alookup ms.loaded_modules configName = some cf.data)
    (sn : String) (sd : SheetDict)
    (hfind : cf.data.find?
        (fun p => sheetVarName configName p.1 == sheetVarName configName sheetName)
        = some (sn, sd))
    (hne : sd.isEmpty = false)
    (item : List (Scalar × PyVal)) (hkey : alookup sd key = some item) :
    getConfigValue fs cs ms configName sheetName key now writeTime = some item := by
  have hlcm : ∃ ms2 : ManagerState,
      loadConfigModule ms configName cf = (ms2, some cf.data) ∧
      alookup ms2.loaded_modules configName = some cf.data := by
    unfold loadConfigModule
    cases hlm : alookup ms.last_modified configName with
    | none =>
        exact ⟨_, rfl, alookup_aset_self _ _ _⟩
    | some lm =>
        dsimp only
        split
        · have hloaded : alookup ms.loaded_modules configName = some cf.data := by
            rcases hload with h | h
            · rw [hlm] at h
              exact Option.noConfusion h
            · exact h
          exact ⟨ms, by rw [hloaded], hloaded⟩
        · exact ⟨_, rfl, alookup_aset_self _ _ _⟩
  obtain ⟨ms2, hl1, hl2⟩ := hlcm
  have hrel : reloadConfig fs cs ms configName true now writeTime
      = (fs, cs, ms2, true) := by
    unfold reloadConfig
    rw [if_pos rfl, hex]
    dsimp only
    rw [hcf]
    dsimp only
    rw [hl1]
    rfl
  have hgc : getConfig fs cs ms configName now writeTime = (fs, cs, ms2, some cf.data) := by
    unfold getConfig
    rw [hrel]
    dsimp only
    rw [hl2]
  have hgs : getConfigSheet fs cs ms configName sheetName now writeTime
      = (fs, cs, ms2, some sd) := by
    unfold getConfigSheet
    rw [hgc]
    dsimp only
    rw [hfind]
  unfold getConfigValue
  rw [hgs]
  dsimp only
  rw [hne, if_neg (by decide)]
  exact hkey

/-- C8: for a generated artifact whose source file no longer exists,
the global up-to-date check reports that config as
`orphaned_code_file` and the aggregate all-up-to-date flag is false,
while `get_config_value` still serves the data of the last compiled
artifact; and in general — for any state — any config whose detail is
not `up_to_date` forces the aggregate flag to false. -/
theorem c8_orphan_detection_and_gate (fs : FS) (cs : ConverterState) (ms : ManagerState)
    (c sheetName : String) (key : Scalar) (now : String) (writeTime : Nat) (cf : CodeFile)
    (hcf : alookup fs.codeFiles c = some cf)
    (hex : alookup fs.excelFiles c = Option.none)
    (hnd : (fs.codeFiles.map Prod.fst).Nodup)
    (hload : alookup ms.last_modified c = Option.none ∨
             alookup ms.loaded_modules c = some cf.data)
    (sn : String) (sd : SheetDict)
    (hfind : cf.data.find?
        (fun p => sheetVarName c p.1 == sheetVarName c sheetName) = some (sn, sd))
    (hne : sd.isEmpty = false)
    (item : List (Scalar × PyVal)) (hkey : alookup sd key = some item) :
    alookup (checkAllConfigsUpToDate fs cs ms).details c = some (orphanDetail c) ∧
    (checkAllConfigsUpToDate fs cs ms).all_up_to_date = false ∧
    getConfigValue fs cs ms c sheetName key now writeTime = some item ∧
    (∀ fs' : FS, ∀ cs' : ConverterState, ∀ ms' : ManagerState,
      (∃ p ∈ (checkAllConfigsUpToDate fs' cs' ms').details, p.2.status ≠ "up_to_date") →
      (checkAllConfigsUpToDate fs' cs' ms').all_up_to_date = false) := by
  obtain ⟨hflag, hdet⟩ := checkAll_orphan fs cs ms c cf hcf hex hnd
  refine ⟨hdet, hflag,
    getConfigValue_orphan fs cs ms c sheetName key now writeTime cf hex hcf hload
      sn sd hfind hne item hkey, ?_⟩
  intro fs' cs' ms' ⟨p, hp, hps⟩
  cases hb : (checkAllConfigsUpToDate fs' cs' ms').all_up_to_date with
  | false => rfl
  | true => exact absurd (checkAll_gate fs' cs' ms' hb p hp) hps

def c8Code : CodeFile :=
  ⟨7, "artifact bytes", [("main", [(.str "k", [(.str "Name", .sc (.str "V"))])])]⟩

def c8FS : FS := ⟨[], [("c", c8Code)], Option.none⟩

def c8CS : ConverterState := ⟨[("c", 5)], [("c", 7)]⟩

def c8MS : ManagerState := ⟨[], []⟩

theorem c8_orphan_detection_and_gate_witness :
    alookup (checkAllConfigsUpToDate c8FS c8CS c8MS).details "c" = some (orphanDetail "c") ∧
    (checkAllConfigsUpToDate c8FS c8CS c8MS).all_up_to_date = false ∧
    getConfigValue c8FS c8CS c8MS "c" "main" (.str "k") "t" 9
      = some [(.str "Name", .sc (.str "V"))] :=
  ⟨(c8_orphan_detection_and_gate c8FS c8CS c8MS "c" "main" (.str "k") "t" 9 c8Code
      (by decide) (by decide) (by decide) (Or.inl (by decide)) "main"
      [(.str "k", [(.str "Name", .sc (.str "V"))])] (by decide) (by decide)
      [(.str "Name", .sc (.str "V"))] (by decide)).1,
   (c8_orphan_detection_and_gate c8FS c8CS c8MS "c" "main" (.str "k") "t" 9 c8Code
      (by decide) (by decide) (by decide) (Or.inl (by decide)) "main"
      [(.str "k", [(.str "Name", .sc (.str "V"))])] (by decide) (by decide)
      [(.str "Name", .sc (.str "V"))] (by decide)).2.1,
   (c8_orphan_detection_and_gate c8FS c8CS c8MS "c" "main" (.str "k") "t" 9 c8Code
      (by decide) (by decide) (by decide) (Or.inl (by decide)) "main"
      [(.str "k", [(.str "Name", .sc (.str "V"))])] (by decide) (by decide)
      [(.str "Name", .sc (.str "V"))] (by decide)).2.2.1⟩

end VoiceCfg
